import Mathlib

/-!
Verification of the concurrency-and-lifecycle control engine of the
VideoResBot repository (shallow embedding of `src/utils/queue_manager.py`,
`src/utils/cleanup.py`, `src/utils/video_processor.py`,
`src/handlers/video/private.py`, `src/handlers/video/channel.py` and
`src/handlers/commands/general.py`).

Python dictionaries are embedded as association lists with unique keys,
`defaultdict(int)` counters as association lists read through a
default-zero lookup, and `deque` queues as lists (append at the tail,
pop at the head).  Telegram message identifiers are modelled as freshly
allocated naturals drawn from a monotone `nextId` counter, matching the
platform's allocation of new message ids.  External I/O outcomes
(forwarding, scheduling, probe results, ban/premium lookups) are inputs
carried on the submitted message or supplied as oracles.
-/

namespace VideoResBot

/-! ### Association list primitives (embedding of Python `dict`) -/

def aget? {κ α : Type} [DecidableEq κ] : List (κ × α) → κ → Option α
  | [], _ => none
  | (k', v) :: t, k => if k' = k then some v else aget? t k

def apop {κ α : Type} [DecidableEq κ] : List (κ × α) → κ → List (κ × α)
  | [], _ => []
  | (k', v) :: t, k => if k' = k then apop t k else (k', v) :: apop t k

def aset {κ α : Type} [DecidableEq κ] (l : List (κ × α)) (k : κ) (v : α) :
    List (κ × α) :=
  (k, v) :: apop l k

def amem {κ α : Type} [DecidableEq κ] (l : List (κ × α)) (k : κ) : Bool :=
  (aget? l k).isSome

@[simp] theorem aget?_nil {κ α : Type} [DecidableEq κ] (k : κ) :
    aget? ([] : List (κ × α)) k = none := rfl

@[simp] theorem aget?_cons {κ α : Type} [DecidableEq κ] (k' k : κ) (v : α) (t : List (κ × α)) :
    aget? ((k', v) :: t) k = if k' = k then some v else aget? t k := rfl

@[simp] theorem apop_nil {κ α : Type} [DecidableEq κ] (k : κ) :
    apop ([] : List (κ × α)) k = [] := rfl

@[simp] theorem apop_cons {κ α : Type} [DecidableEq κ] (k' k : κ) (v : α) (t : List (κ × α)) :
    apop ((k', v) :: t) k = if k' = k then apop t k else (k', v) :: apop t k := rfl

theorem aget?_apop_self {κ α : Type} [DecidableEq κ] (l : List (κ × α)) (k : κ) :
    aget? (apop l k) k = none := by
  induction l with
  | nil => rfl
  | cons h t ih =>
    obtain ⟨k', v⟩ := h
    by_cases hk : k' = k <;> simp [hk, ih]

theorem aget?_apop_ne {κ α : Type} [DecidableEq κ] (l : List (κ × α)) (k k' : κ)
    (h : k' ≠ k) : aget? (apop l k) k' = aget? l k' := by
  induction l with
  | nil => rfl
  | cons hd t ih =>
    obtain ⟨k₀, v⟩ := hd
    by_cases h0 : k₀ = k
    · subst h0
      simp [ih, Ne.symm h]
    · by_cases h1 : k₀ = k' <;> simp [h0, h1, ih, h]

theorem aget?_aset_self {κ α : Type} [DecidableEq κ] (l : List (κ × α)) (k : κ) (v : α) :
    aget? (aset l k v) k = some v := by
  simp [aset]

theorem aget?_aset_ne {κ α : Type} [DecidableEq κ] (l : List (κ × α)) (k k' : κ) (v : α)
    (h : k' ≠ k) : aget? (aset l k v) k' = aget? l k' := by
  simp [aset, Ne.symm h, aget?_apop_ne l k k' h]

theorem apop_of_aget?_eq_none {κ α : Type} [DecidableEq κ] (l : List (κ × α)) (k : κ)
    (h : aget? l k = none) : apop l k = l := by
  induction l with
  | nil => rfl
  | cons hd t ih =>
    obtain ⟨k₀, v⟩ := hd
    by_cases h0 : k₀ = k
    · simp [h0] at h
    · simp [h0] at h ⊢
      exact ih h

/-! ### Configuration constants (`src/config/config.py`) -/

def VIDEO_TIMEOUT : Nat := 3600
def MAX_QUEUED_VIDEOS : Nat := 100
def MAX_CONCURRENT_VIDEOS_REGULAR : Nat := 1
def MAX_CONCURRENT_VIDEOS_PREMIUM : Nat := 5
def MAX_CONCURRENT_VIDEOS_CHANNEL : Nat := 5
def QUEUE_SIZE_LIMIT : Nat := 1000

/-! ### Data model

`OwnerData` is the value stored in `State.user_videos`: a bare user id for
user jobs, or the `(channel_id, message_id)` pair for channel jobs
(`src/utils/video_processor.py`, `track_video_progress`). -/

inductive OwnerData : Type
  | user (uid : Int)
  | channel (cid : Int) (msgId : Nat)
deriving DecidableEq, Repr

/-- One entry of `State.video_info`:
`(user_id, scheduled_msg_id, timestamp, original_size, duration)`. -/
structure VideoEntry : Type where
  userId : Int
  scheduledMsgId : Nat
  timestamp : Nat
  originalSize : Nat
  duration : Nat
deriving DecidableEq, Repr

/-- A private-chat video message together with the outcomes of the external
checks and I/O steps that `process_video_handler` performs on it. -/
structure UMsg : Type where
  fromUser : Int
  isBanned : Bool
  hasChannel : Bool
  isPremium : Bool
  fileSize : Nat
  duration : Nat
  forwardOk : Bool
  instant : Bool
  sizeOk : Bool
  formatOk : Bool
  schedOk : Bool
deriving DecidableEq, Repr

/-- A channel video message together with its external-check outcomes
(`channel_video_handler` / `process_channel_video`). -/
structure CMsg : Type where
  chatId : Int
  msgId : Nat
  chanActive : Bool
  hasAlternatives : Bool
  sizeOk : Bool
  formatOk : Bool
  forwardOk : Bool
  schedOk : Bool
  fileSize : Nat
  duration : Nat
deriving DecidableEq, Repr

/-- The mutable global state of `src/config/state.py` and
`src/utils/queue_manager.py`, plus a fresh-id allocator `nextId` for
Telegram message ids and the current clock `now`. -/
structure S : Type where
  video_info : List (Nat × VideoEntry)
  user_videos : List (Nat × OwnerData)
  active_users : List Int
  sched_map : List (Nat × Nat)
  uqueue : List (Int × List UMsg)
  cqueue : List (Int × List CMsg)
  ucount : List (Int × Nat)
  ccount : List (Int × Nat)
  nextId : Nat
  now : Nat
deriving DecidableEq, Repr

def initState : S :=
  { video_info := [], user_videos := [], active_users := [], sched_map := []
    uqueue := [], cqueue := [], ucount := [], ccount := [], nextId := 1, now := 0 }

/-! ### Counter and queue primitives (`src/utils/queue_manager.py`) -/

def cget (l : List (Int × Nat)) (k : Int) : Nat := (aget? l k).getD 0

def increment_active_videos (l : List (Int × Nat)) (entity_id : Int) : List (Int × Nat) :=
  aset l entity_id (cget l entity_id + 1)

def decrement_active_videos (l : List (Int × Nat)) (entity_id : Int) : List (Int × Nat) :=
  if cget l entity_id > 0 then aset l entity_id (cget l entity_id - 1) else l

def qget {μ : Type} (l : List (Int × List μ)) (k : Int) : List μ := (aget? l k).getD []

def add_to_queue {μ : Type} (l : List (Int × List μ)) (entity_id : Int) (m : μ) :
    List (Int × List μ) :=
  aset l entity_id (qget l entity_id ++ [m])

/-- `get_next_from_queue`: pop the leftmost item, returning it and the
updated queue table. -/
def get_next_from_queue {μ : Type} (l : List (Int × List μ)) (entity_id : Int) :
    Option μ × List (Int × List μ) :=
  match qget l entity_id with
  | [] => (none, l)
  | m :: rest => (some m, aset l entity_id rest)

def has_queued_videos {μ : Type} (l : List (Int × List μ)) (entity_id : Int) : Bool :=
  !(qget l entity_id).isEmpty

/-- Python `set.add` on `State.active_users`. -/
def sadd (l : List Int) (x : Int) : List Int := if x ∈ l then l else x :: l

/-- Python `set.discard` on `State.active_users`. -/
def sdel (l : List Int) (x : Int) : List Int := l.filter (fun y => y ≠ x)

/-! ### Observable effects and outcomes -/

/-- User-facing message templates of `src/config/messages.py` that the
modelled handlers emit. -/
inductive MsgText : Type
  | USER_BANNED | CHANNEL_SETUP_REQUIRED | VIDEO_RECEIVED
  | QUEUE_LIMIT_REACHED (pos : Nat) | SYSTEM_BUSY | VIDEO_TOO_LARGE
  | CHECKING_FORMAT | UNSUPPORTED_CODEC | FAILED_INITIATE_PROCESS
  | FAILED_SCHEDULE_PROCESS | PROCESSING_VIDEO | CANCEL_NO_ACTIVE_VIDEO
  | CANCEL_STILL_ACTIVE (n : Nat) | CANCEL_SUCCESS | CRITICAL_PROCESS_ERROR
deriving DecidableEq, Repr

/-- External I/O performed by the handlers, in program order. -/
inductive Effect : Type
  | replyText (uid : Int) (t : MsgText)
  | editStatus (uid : Int) (t : MsgText)
  | sendUser (uid : Int) (t : MsgText)
  | sendAdminReport
  | deliverOriginal (uid : Int) (tid : Nat)
  | deliverAlternatives (uid : Int) (tid : Nat)
  | editChannelPost (cid : Int) (mid : Nat)
  | deleteScheduled (sid : Nat)
deriving DecidableEq, Repr

/-- Label of the control-flow path a submission took (the Python handlers
communicate this only through messages and logs). -/
inductive Outcome : Type
  | accepted (tid : Nat)
  | queued (pos : Nat)
  | queuedChannel
  | instantDone (tid : Nat)
  | rejectedBanned | rejectedNoChannel | rejectedBusy | rejectedTooLarge
  | rejectedFormat | rejectedForwardFailed | rejectedScheduleFailed
  | skippedInactiveChannel | skippedAlreadyProcessed
  | drained
deriving DecidableEq, Repr

/-! ### Registry helpers (`src/handlers/video/private.py`) -/

/-- The scan of lines 90–93 / 236–239 of `private.py`: does the user own an
entry of `user_videos` that is still present in `video_info`? -/
def userHasActiveEntry (s : S) (uid : Int) : Bool :=
  s.user_videos.any (fun p => p.2 == OwnerData.user uid && amem s.video_info p.1)

/-- `remove_user_from_active_if_no_videos` (`private.py` lines 234–240). -/
def remove_user_from_active_if_no_videos (s : S) (uid : Int) : S :=
  if userHasActiveEntry s uid then s
  else { s with active_users := sdel s.active_users uid }

/-! ### Cleanup core (`src/utils/cleanup.py`, `clean_up_tracking_info`)

The fifth step of `clean_up_tracking_info` schedules the queue drain as a
detached task (`State.main_event_loop.create_task`); the core therefore
returns the drain request, and callers run it at their next suspension
point. -/

def clean_up_core (tid : Nat) (dat : Option OwnerData) (s : S) :
    S × Option (Int × Bool) :=
  if tid = 0 then (s, none)
  else
    let info : Int × Bool × Int :=
      match dat with
      | some (.user u) => (u, false, (0 : Int))
      | some (.channel c _) => ((-1 : Int), true, c)
      | none => ((-1 : Int), false, (0 : Int))
    let uidc := info.1
    let isCh := info.2.1
    let chId := info.2.2
    let sched? : Option Nat := (aget? s.video_info tid).map VideoEntry.scheduledMsgId
    let s1 := { s with video_info := apop s.video_info tid
                       user_videos := apop s.user_videos tid }
    let s2 :=
      if uidc ≠ -1 ∧ isCh = false then
        let c' := decrement_active_videos s1.ucount uidc
        let s' := { s1 with ucount := c' }
        if cget c' uidc = 0 ∧ has_queued_videos s'.uqueue uidc = false then
          { s' with active_users := sdel s'.active_users uidc }
        else s'
      else if isCh = true ∧ chId ≠ 0 then
        { s1 with ccount := decrement_active_videos s1.ccount chId }
      else s1
    let s3 :=
      match sched? with
      | some sid =>
        if sid ≠ 0 ∧ aget? s2.sched_map sid = some tid then
          { s2 with sched_map := apop s2.sched_map sid }
        else s2
      | none => s2
    let entity := if isCh then chId else uidc
    let req := if entity ≠ 0 ∧ entity ≠ -1 then some (entity, isCh) else none
    (s3, req)

/-! ### Channel submission (`src/handlers/video/channel.py`)

`process_channel_video` performs no queue drain on its failure paths (it
decrements the counter directly), so it needs no fuel. -/

def process_channel_video (m : CMsg) (s : S) : S × List Effect × Outcome :=
  let cid := m.chatId
  if m.hasAlternatives then (s, [], .skippedAlreadyProcessed)
  else if !m.sizeOk then (s, [], .rejectedTooLarge)
  else if !m.formatOk then (s, [], .rejectedFormat)
  else if cget s.ccount cid ≥ MAX_CONCURRENT_VIDEOS_CHANNEL then
    ({ s with cqueue := add_to_queue s.cqueue cid m }, [], .queuedChannel)
  else
    let s1 := { s with ccount := increment_active_videos s.ccount cid }
    if !m.forwardOk then
      ({ s1 with ccount := decrement_active_videos s1.ccount cid }, [], .rejectedForwardFailed)
    else
      let tid := s1.nextId
      let s2 := { s1 with nextId := s1.nextId + 1 }
      if !m.schedOk then
        ({ s2 with ccount := decrement_active_videos s2.ccount cid }, [], .rejectedScheduleFailed)
      else
        let sid := s2.nextId
        let s3 := { s2 with nextId := s2.nextId + 1
                            sched_map := aset s2.sched_map sid tid }
        let s4 := { s3 with
          video_info := aset s3.video_info tid ⟨-1, sid, s3.now, m.fileSize, m.duration⟩
          user_videos := aset s3.user_videos tid (.channel cid m.msgId) }
        (s4, [], .accepted tid)

/-- `channel_video_handler` (`channel.py` lines 29–52): activation check and
the queue-full check, then delegation. -/
def channel_video_handler (m : CMsg) (s : S) : S × List Effect × Outcome :=
  if !m.chanActive then (s, [], .skippedInactiveChannel)
  else if s.video_info.length ≥ MAX_QUEUED_VIDEOS then (s, [], .rejectedBusy)
  else process_channel_video m s

/-! ### The user-submission / drain engine

`process_video_handler` and `process_next_from_queue` are mutually
recursive through the queue drain (a drained message is resubmitted
through the full handler).  The bodies are written as `pvh_core` /
`pnfq_core`, each abstracted over the function it re-enters, and the knot
is tied by `engine`, whose recursion is structural on a fuel argument;
with fuel at least the total queued work the embedding agrees with the
source (fuel `0` merely stops a drain). -/

/-- The state change of `cleanup_and_process_next` (`cleanup.py` lines
225–234) before the final drain: decrement, and for users the
conditional removal from the active set. -/
def capn_state (entity : Int) (isChan : Bool) (s : S) : S :=
  if isChan then { s with ccount := decrement_active_videos s.ccount entity }
  else
    remove_user_from_active_if_no_videos
      { s with ucount := decrement_active_videos s.ucount entity } entity

/-- Admission part of `process_video_handler` (`private.py` lines 98–203),
entered after the ban / channel-setup guards and the stale-active scrub;
`drain` re-enters `process_next_from_queue` for this user. -/
def pvh_admission (drain : S → S × List Effect) (m : UMsg) (s1 : S) :
    S × List Effect × Outcome :=
  let uid := m.fromUser
  let e0 : List Effect := [.replyText uid .VIDEO_RECEIVED]
  let limit := if m.isPremium then MAX_CONCURRENT_VIDEOS_PREMIUM
               else MAX_CONCURRENT_VIDEOS_REGULAR
  if cget s1.ucount uid ≥ limit then
    let s2 := { s1 with uqueue := add_to_queue s1.uqueue uid m }
    let pos := (qget s2.uqueue uid).length
    (s2, e0 ++ [.editStatus uid (.QUEUE_LIMIT_REACHED pos)], .queued pos)
  else
    let s2 := { s1 with active_users := sadd s1.active_users uid
                        ucount := increment_active_videos s1.ucount uid }
    if !m.forwardOk then
      let r := drain (capn_state uid false s2)
      (r.1, e0 ++ [.editStatus uid .FAILED_INITIATE_PROCESS] ++ r.2,
       .rejectedForwardFailed)
    else
      let tid := s2.nextId
      let s3 := { s2 with nextId := s2.nextId + 1 }
      if m.instant then
        let eI : List Effect :=
          [.deliverOriginal uid tid, .deliverAlternatives uid tid, .sendAdminReport]
        let r := drain (capn_state uid false s3)
        (r.1, e0 ++ eI ++ r.2, .instantDone tid)
      else if s3.video_info.length ≥ MAX_QUEUED_VIDEOS then
        let r := drain (capn_state uid false s3)
        (r.1, e0 ++ [.editStatus uid .SYSTEM_BUSY] ++ r.2, .rejectedBusy)
      else if !m.sizeOk then
        let r := drain (capn_state uid false s3)
        (r.1, e0 ++ [.editStatus uid .VIDEO_TOO_LARGE] ++ r.2, .rejectedTooLarge)
      else
        let e1 := e0 ++ [Effect.editStatus uid .CHECKING_FORMAT]
        if !m.formatOk then
          let r := drain (capn_state uid false s3)
          (r.1, e1 ++ [.editStatus uid .UNSUPPORTED_CODEC] ++ r.2, .rejectedFormat)
        else if !m.schedOk then
          let r := drain (capn_state uid false s3)
          (r.1, e1 ++ [.editStatus uid .FAILED_SCHEDULE_PROCESS] ++ r.2,
           .rejectedScheduleFailed)
        else
          let sid := s3.nextId
          let s4 := { s3 with nextId := s3.nextId + 1
                              sched_map := aset s3.sched_map sid tid }
          let s5 := { s4 with
            video_info := aset s4.video_info tid ⟨uid, sid, s4.now, m.fileSize, m.duration⟩
            user_videos := aset s4.user_videos tid (.user uid) }
          (s5, e1 ++ [.editStatus uid .PROCESSING_VIDEO], .accepted tid)

/-- Body of `process_video_handler` (`private.py` lines 67–232): the ban and
channel-setup guards, the stale-active scrub, then admission. -/
def pvh_core (drain : S → S × List Effect) (m : UMsg) (s : S) :
    S × List Effect × Outcome :=
  let uid := m.fromUser
  if m.isBanned then (s, [.replyText uid .USER_BANNED], .rejectedBanned)
  else if !m.hasChannel then
    (s, [.replyText uid .CHANNEL_SETUP_REQUIRED], .rejectedNoChannel)
  else
    let s1 := if uid ∈ s.active_users ∧ userHasActiveEntry s uid = false
              then { s with active_users := sdel s.active_users uid } else s
    pvh_admission drain m s1

/-- Body of `process_next_from_queue` (`cleanup.py` lines 109–127);
`submitU` re-enters `process_video_handler` on the dequeued message. -/
def pnfq_core (submitU : UMsg → S → S × List Effect × Outcome)
    (entity : Int) (isChan : Bool) (s : S) : S × List Effect × Outcome :=
  if isChan then
    match get_next_from_queue s.cqueue entity with
    | (none, _) => (s, [], .drained)
    | (some m, q') =>
      let r := process_channel_video m { s with cqueue := q' }
      (r.1, r.2.1, .drained)
  else
    match get_next_from_queue s.uqueue entity with
    | (none, _) => (s, [], .drained)
    | (some m, q') =>
      let r := submitU m { s with uqueue := q' }
      (r.1, r.2.1, .drained)

inductive Req : Type
  | pvh (m : UMsg)
  | pnfq (entity : Int) (isChan : Bool)

def engine : Nat → Req → S → S × List Effect × Outcome
  | 0, _, s => (s, [], .drained)
  | fuel + 1, .pvh m, s =>
    pvh_core (fun st =>
      let r := engine fuel (.pnfq m.fromUser false) st
      (r.1, r.2.1)) m s
  | fuel + 1, .pnfq entity isChan, s =>
    pnfq_core (fun m' st => engine fuel (.pvh m') st) entity isChan s

/-- `process_video_handler` (`private.py` lines 67–232). -/
def process_video_handler (fuel : Nat) (m : UMsg) (s : S) : S × List Effect × Outcome :=
  engine fuel (.pvh m) s

/-- `process_next_from_queue` (`cleanup.py` lines 109–127). -/
def process_next_from_queue (fuel : Nat) (entity : Int) (isChan : Bool) (s : S) :
    S × List Effect :=
  let r := engine fuel (.pnfq entity isChan) s
  (r.1, r.2.1)

/-- `cleanup_and_process_next` (`cleanup.py` lines 225–234). -/
def cleanup_and_process_next (fuel : Nat) (entity : Int) (isChan : Bool) (s : S) :
    S × List Effect :=
  process_next_from_queue fuel entity isChan (capn_state entity isChan s)

/-- Run a drain request produced by `clean_up_core`. -/
def run_drain (fuel : Nat) (req : Option (Int × Bool)) (s : S) : S × List Effect :=
  match req with
  | none => (s, [])
  | some (e, b) => process_next_from_queue fuel e b s

/-- `process_video_handler` (`private.py` lines 67–232) in the run where the
acknowledgment `reply_text` of line 99 raises (a routine Telegram send
failure).  The ban / channel-setup guards and the stale-active scrub of
lines 74–96 have already executed; the exception reaches the top-level
handler of line 211, where `status_message` is not in `locals()` so the
critical-error reply goes to the original message, and the `finally` block
of lines 221–224 runs `cleanup_and_process_next(user_id, is_channel=False)`
even though the ledger increment of line 123 never happened;
`transfer_msg_id` is not bound, so the tracking cleanup of lines 226–232 is
skipped. -/
def pvh_ack_fault (fuel : Nat) (m : UMsg) (s : S) : S × List Effect :=
  let uid := m.fromUser
  if m.isBanned then (s, [.replyText uid .USER_BANNED])
  else if !m.hasChannel then (s, [.replyText uid .CHANNEL_SETUP_REQUIRED])
  else
    let s1 := if uid ∈ s.active_users ∧ userHasActiveEntry s uid = false
              then { s with active_users := sdel s.active_users uid } else s
    let r := cleanup_and_process_next fuel uid false s1
    (r.1, [.replyText uid .CRITICAL_PROCESS_ERROR] ++ r.2)

/-- `clean_up_tracking_info` (`cleanup.py` lines 32–107) together with the
queue-drain task it schedules. -/
def clean_up_tracking_info (fuel : Nat) (tid : Nat) (dat : Option OwnerData) (s : S) :
    S × List Effect :=
  let r := clean_up_core tid dat s
  run_drain fuel r.2 r.1

/-! ### Cancellation (`src/handlers/commands/general.py`, `cancel_command_handler`) -/

inductive CancelOutcome : Type
  | nothingToCancel
  | cancelled (tid : Nat)
deriving DecidableEq, Repr

def cancel_command_handler (fuel : Nat) (uid : Int) (s : S) :
    S × List Effect × CancelOutcome :=
  let ac := cget s.ucount uid
  if ac = 0 ∧ uid ∉ s.active_users then
    (s, [.replyText uid .CANCEL_NO_ACTIVE_VIDEO], .nothingToCancel)
  else
    match s.user_videos.find?
        (fun p => p.2 == OwnerData.user uid && amem s.video_info p.1) with
    | none =>
      let s1 := if ac = 0 then { s with active_users := sdel s.active_users uid } else s
      (s1, [.replyText uid .CANCEL_NO_ACTIVE_VIDEO], .nothingToCancel)
    | some (tid, _) =>
      let sid := ((aget? s.video_info tid).map VideoEntry.scheduledMsgId).getD 0
      let r := clean_up_core tid (some (.user uid)) s
      let rem := cget r.1.ucount uid
      let e2s2 : List Effect × S :=
        if rem > 0 then ([.replyText uid (.CANCEL_STILL_ACTIVE rem)], r.1)
        else ([.replyText uid .CANCEL_SUCCESS],
              { r.1 with active_users := sdel r.1.active_users uid })
      let d := run_drain fuel r.2 e2s2.2
      (d.1, Effect.deleteScheduled sid :: e2s2.1 ++ d.2, .cancelled tid)

/-! ### Completion handler (`src/utils/video_processor.py`, `handle_processed_video`) -/

def handle_processed_video (fuel : Nat) (tid : Nat) (junkHasVideo : Bool) (s : S) :
    S × List Effect :=
  if amem s.video_info tid = false then
    match s.sched_map.find? (fun p => p.2 == tid) with
    | some (sid, _) => ({ s with sched_map := apop s.sched_map sid }, [])
    | none => (s, [])
  else
    let entry := (aget? s.video_info tid).getD ⟨0, 0, 0, 0, 0⟩
    let dat := aget? s.user_videos tid
    if junkHasVideo = false then
      let r := clean_up_core tid dat s
      let d := run_drain fuel r.2 r.1
      (d.1, Effect.deleteScheduled entry.scheduledMsgId :: d.2)
    else
      let eDeliver : List Effect :=
        match dat with
        | some (.channel c mid) => [.editChannelPost c mid]
        | _ => [.deliverOriginal entry.userId tid, .deliverAlternatives entry.userId tid]
      let eDel : List Effect :=
        if entry.scheduledMsgId ≠ 0 then [.deleteScheduled entry.scheduledMsgId] else []
      let r := clean_up_core tid dat s
      let d := run_drain fuel r.2 r.1
      (d.1, eDeliver ++ [Effect.sendAdminReport] ++ eDel ++ d.2)

/-! ### The poller sweep (`src/utils/cleanup.py`, `run_periodic_cleanup_task`)

One iteration of the `while` body after the sleep.  The probe oracle gives,
per transfer id, the outcome of copying the message to the junk channel.
When an entry is past the timeout, `check_video_timeout` executes
`from handlers.video import handle_video_timeout`; the package
`handlers/video/__init__.py` exports no such name, so the statement raises
ImportError, which aborts the whole `for` loop and is swallowed by the
sweep's outer `except`.  The `Bool` in the result records that abort. -/

inductive ProbeResult : Type
  | copyFail | pending | done
deriving DecidableEq, Repr

def sweep_go (fuel : Nat) (probe : Nat → ProbeResult) :
    List (Nat × VideoEntry) → S → List Effect → S × List Effect × Bool
  | [], s, acc => (s, acc, false)
  | (tid, e) :: rest, s, acc =>
    if e.scheduledMsgId = 0 then sweep_go fuel probe rest s acc
    else if s.now - e.timestamp > VIDEO_TIMEOUT then (s, acc, true)
    else
      match probe tid with
      | .copyFail => sweep_go fuel probe rest s acc
      | .pending => sweep_go fuel probe rest s acc
      | .done =>
        if amem s.video_info tid then
          let r := handle_processed_video fuel tid true s
          sweep_go fuel probe rest r.1 (acc ++ r.2)
        else sweep_go fuel probe rest s acc

def sweep_tick (fuel : Nat) (probe : Nat → ProbeResult) (s : S) :
    S × List Effect × Bool :=
  sweep_go fuel probe s.video_info s []

/-! ### Key-list and counting lemmas -/

def keys {α : Type} (l : List (Nat × α)) : List Nat := l.map Prod.fst

theorem mem_keys_iff_amem {α : Type} (l : List (Nat × α)) (k : Nat) :
    k ∈ keys l ↔ amem l k = true := by
  induction l with
  | nil => simp [keys, amem, aget?]
  | cons hd t ih =>
    obtain ⟨k₀, v⟩ := hd
    by_cases h0 : k₀ = k
    · subst h0
      simp [keys, amem]
    · have h0' : k ≠ k₀ := fun hh => h0 hh.symm
      simp [keys, amem, h0, h0'] at ih ⊢
      exact ih

theorem mem_apop_subset {α : Type} [DecidableEq κ] {l : List (κ × α)} {k : κ}
    {p : κ × α} (h : p ∈ apop l k) : p ∈ l := by
  induction l with
  | nil => simp [apop] at h
  | cons hd t ih =>
    obtain ⟨k₀, v⟩ := hd
    by_cases h0 : k₀ = k
    · simp [h0] at h
      exact List.mem_cons_of_mem _ (ih h)
    · simp [h0] at h
      rcases h with h | h
      · simp [h]
      · exact List.mem_cons_of_mem _ (ih h)

theorem fst_ne_of_mem_apop {α : Type} [DecidableEq κ] {l : List (κ × α)} {k : κ}
    {p : κ × α} (h : p ∈ apop l k) : p.1 ≠ k := by
  induction l with
  | nil => simp [apop] at h
  | cons hd t ih =>
    obtain ⟨k₀, v⟩ := hd
    by_cases h0 : k₀ = k
    · simp [h0] at h
      exact ih h
    · simp [h0] at h
      rcases h with h | h
      · simp [h, h0]
      · exact ih h

theorem aget?_mem {α : Type} [DecidableEq κ] {l : List (κ × α)} {k : κ} {v : α}
    (h : aget? l k = some v) : (k, v) ∈ l := by
  induction l with
  | nil => simp [aget?] at h
  | cons hd t ih =>
    obtain ⟨k₀, v₀⟩ := hd
    by_cases h0 : k₀ = k
    · subst h0
      simp at h
      simp [h]
    · simp [h0] at h
      exact List.mem_cons_of_mem _ (ih h)

theorem aget?_eq_of_mem_nodup {α : Type} {l : List (Nat × α)} {k : Nat} {v : α}
    (hnd : (keys l).Nodup) (hm : (k, v) ∈ l) : aget? l k = some v := by
  induction l with
  | nil => simp at hm
  | cons hd t ih =>
    obtain ⟨k₀, v₀⟩ := hd
    rw [keys, List.map_cons, List.nodup_cons] at hnd
    rcases List.mem_cons.1 hm with hm | hm
    · rw [Prod.mk.injEq] at hm
      obtain ⟨hk, hv⟩ := hm
      subst hk
      subst hv
      simp
    · have hk : k₀ ≠ k := by
        intro hh
        subst hh
        exact hnd.1 (List.mem_map.2 ⟨(k₀, v), hm, rfl⟩)
      simp [hk]
      exact ih hnd.2 hm

theorem countP_apop_pos {α : Type} (l : List (Nat × α)) (tid : Nat) (g : Nat → Bool)
    (hnd : (keys l).Nodup) (hm : amem l tid = true) (hg : g tid = true) :
    l.countP (fun p => g p.1) = (apop l tid).countP (fun p => g p.1) + 1 := by
  induction l with
  | nil => simp [amem, aget?] at hm
  | cons hd t ih =>
    obtain ⟨k₀, v₀⟩ := hd
    rw [keys, List.map_cons, List.nodup_cons] at hnd
    by_cases h0 : k₀ = tid
    · subst h0
      have ht : apop t k₀ = t := by
        apply apop_of_aget?_eq_none
        cases hh : aget? t k₀ with
        | none => rfl
        | some w => exact absurd (List.mem_map_of_mem Prod.fst (aget?_mem hh)) hnd.1
      simp [List.countP_cons, hg, ht]
    · have hm' : amem t tid = true := by
        simpa [amem, h0] using hm
      rw [apop_cons, if_neg h0, List.countP_cons, List.countP_cons, ih hnd.2 hm']
      omega

theorem countP_apop_neg {α : Type} (l : List (Nat × α)) (tid : Nat) (g : Nat → Bool)
    (hg : g tid = false) :
    (apop l tid).countP (fun p => g p.1) = l.countP (fun p => g p.1) := by
  induction l with
  | nil => rfl
  | cons hd t ih =>
    obtain ⟨k₀, v₀⟩ := hd
    by_cases h0 : k₀ = tid
    · subst h0
      simp [List.countP_cons, hg, ih]
    · simp [List.countP_cons, h0, ih]

theorem countP_pos_of_amem {α : Type} {l : List (Nat × α)} {tid : Nat} {g : Nat → Bool}
    (hm : amem l tid = true) (hg : g tid = true) :
    0 < l.countP (fun p => g p.1) := by
  induction l with
  | nil => simp [amem, aget?] at hm
  | cons hd t ih =>
    obtain ⟨k₀, v₀⟩ := hd
    by_cases h0 : k₀ = tid
    · subst h0
      simp [List.countP_cons, hg]
    · have hm' : amem t tid = true := by simpa [amem, h0] using hm
      calc 0 < List.countP (fun p => g p.1) t := ih hm'
        _ ≤ List.countP (fun p => g p.1) ((k₀, v₀) :: t) := by
            rw [List.countP_cons]
            exact Nat.le_add_right _ _

theorem countP_aset_fresh {α : Type} (l : List (Nat × α)) (tid : Nat) (v : α)
    (g : Nat → Bool) (hm : amem l tid = false) :
    (aset l tid v).countP (fun p => g p.1) =
      l.countP (fun p => g p.1) + (if g tid then 1 else 0) := by
  have ht : apop l tid = l := by
    apply apop_of_aget?_eq_none
    simpa [amem, Option.isSome_iff_exists] using hm
  rw [aset, ht, List.countP_cons]

/-! ### Counter lemmas -/

theorem cget_inc_self (l : List (Int × Nat)) (k : Int) :
    cget (increment_active_videos l k) k = cget l k + 1 := by
  show cget (aset l k (cget l k + 1)) k = cget l k + 1
  rw [cget, aget?_aset_self]
  rfl

theorem cget_inc_ne (l : List (Int × Nat)) (k o : Int) (h : o ≠ k) :
    cget (increment_active_videos l k) o = cget l o := by
  show cget (aset l k (cget l k + 1)) o = cget l o
  rw [cget, aget?_aset_ne _ _ _ _ h]
  rfl

theorem cget_dec_self (l : List (Int × Nat)) (k : Int) :
    cget (decrement_active_videos l k) k = cget l k - 1 := by
  rw [decrement_active_videos]
  by_cases h : cget l k > 0
  · rw [if_pos h, cget, aget?_aset_self]
    rfl
  · rw [if_neg h]
    omega

theorem cget_dec_ne (l : List (Int × Nat)) (k o : Int) (h : o ≠ k) :
    cget (decrement_active_videos l k) o = cget l o := by
  rw [decrement_active_videos]
  by_cases hp : cget l k > 0
  · rw [if_pos hp, cget, aget?_aset_ne _ _ _ _ h]
    rfl
  · rw [if_neg hp]

theorem cget_dec_inc (l : List (Int × Nat)) (k o : Int) :
    cget (decrement_active_videos (increment_active_videos l k) k) o = cget l o := by
  by_cases h : o = k
  · subst h
    rw [cget_dec_self, cget_inc_self]
    omega
  · rw [cget_dec_ne _ _ _ h, cget_inc_ne _ _ _ h]

/-! ### The per-owner registry counts (the Concurrency Ledger invariant) -/

def isUserOwned (uv : List (Nat × OwnerData)) (o : Int) (k : Nat) : Bool :=
  match aget? uv k with
  | some (.user u) => u == o
  | _ => false

def isChanOwned (uv : List (Nat × OwnerData)) (o : Int) (k : Nat) : Bool :=
  match aget? uv k with
  | some (.channel c _) => c == o
  | _ => false

/-- Number of `video_info` entries whose `user_videos` reverse-map entry is
the bare user id `o`. -/
def ownerCountU (vi : List (Nat × VideoEntry)) (uv : List (Nat × OwnerData))
    (o : Int) : Nat :=
  vi.countP (fun p => isUserOwned uv o p.1)

/-- Number of `video_info` entries whose `user_videos` reverse-map entry is
a `(channel_id, message_id)` tuple with first component `o`. -/
def ownerCountC (vi : List (Nat × VideoEntry)) (uv : List (Nat × OwnerData))
    (o : Int) : Nat :=
  vi.countP (fun p => isChanOwned uv o p.1)

/-! ### Further membership lemmas -/

theorem amem_false_iff {κ α : Type} [DecidableEq κ] (l : List (κ × α)) (k : κ) :
    amem l k = false ↔ aget? l k = none := by
  cases hh : aget? l k <;> simp [amem, hh]

theorem amem_true_iff {κ α : Type} [DecidableEq κ] (l : List (κ × α)) (k : κ) :
    amem l k = true ↔ ∃ v, aget? l k = some v := by
  rw [amem, Option.isSome_iff_exists]

theorem amem_of_mem {κ α : Type} [DecidableEq κ] {l : List (κ × α)} {p : κ × α}
    (hp : p ∈ l) : amem l p.1 = true := by
  induction l with
  | nil => simp at hp
  | cons hd t ih =>
    obtain ⟨k₀, v₀⟩ := hd
    rcases List.mem_cons.1 hp with hp | hp
    · subst hp
      simp [amem]
    · by_cases h0 : k₀ = p.1
      · simp [amem, h0]
      · simpa [amem, h0] using ih hp

theorem mem_fst_ne_of_amem_false {κ α : Type} [DecidableEq κ] {l : List (κ × α)} {k : κ}
    (h : amem l k = false) {p : κ × α} (hp : p ∈ l) : p.1 ≠ k := by
  intro hh
  have hm := amem_of_mem hp
  rw [hh, h] at hm
  cases hm

theorem amem_eq_false_of_keys_lt {α : Type} {l : List (Nat × α)} {n : Nat}
    (h : ∀ p ∈ l, p.1 < n) : amem l n = false := by
  rw [amem_false_iff]
  cases hh : aget? l n with
  | none => rfl
  | some v => exact absurd (h _ (aget?_mem hh)) (by simp)

theorem amem_aset_self {κ α : Type} [DecidableEq κ] (l : List (κ × α)) (k : κ) (v : α) :
    amem (aset l k v) k = true := by
  rw [amem, aget?_aset_self]
  rfl

theorem amem_aset_ne {κ α : Type} [DecidableEq κ] (l : List (κ × α)) (k k' : κ) (v : α)
    (h : k' ≠ k) : amem (aset l k v) k' = amem l k' := by
  rw [amem, aget?_aset_ne _ _ _ _ h, amem]

theorem amem_apop_self {κ α : Type} [DecidableEq κ] (l : List (κ × α)) (k : κ) :
    amem (apop l k) k = false := by
  rw [amem, aget?_apop_self]
  rfl

theorem amem_apop_ne {κ α : Type} [DecidableEq κ] (l : List (κ × α)) (k k' : κ)
    (h : k' ≠ k) : amem (apop l k) k' = amem l k' := by
  rw [amem, aget?_apop_ne _ _ _ h, amem]

theorem apop_of_amem_false {κ α : Type} [DecidableEq κ] {l : List (κ × α)} {k : κ}
    (h : amem l k = false) : apop l k = l :=
  apop_of_aget?_eq_none _ _ ((amem_false_iff l k).1 h)

theorem keys_nodup_aset {α : Type} {l : List (Nat × α)} {k : Nat} {v : α}
    (hnd : (keys l).Nodup) (hm : amem l k = false) : (keys (aset l k v)).Nodup := by
  rw [aset, apop_of_amem_false hm, keys, List.map_cons, List.nodup_cons]
  exact ⟨fun hh => by simp [(mem_keys_iff_amem l k).1 hh] at hm, hnd⟩

theorem keys_nodup_apop {α : Type} {l : List (Nat × α)} {k : Nat}
    (hnd : (keys l).Nodup) : (keys (apop l k)).Nodup := by
  induction l with
  | nil => simp [keys]
  | cons hd t ih =>
    obtain ⟨k₀, v₀⟩ := hd
    rw [keys, List.map_cons, List.nodup_cons] at hnd
    by_cases h0 : k₀ = k
    · simp [h0]
      exact ih hnd.2
    · rw [apop_cons, if_neg h0, keys, List.map_cons, List.nodup_cons]
      refine ⟨fun hh => hnd.1 ?_, ih hnd.2⟩
      obtain ⟨p, hp, hpe⟩ := List.mem_map.1 hh
      exact hpe ▸ List.mem_map.2 ⟨p, mem_apop_subset hp, rfl⟩

/-! ### The inductive invariant -/

/-- Realistic Telegram owner identities: user ids are positive, channel ids
negative.  These are exactly the assumptions under which the type-dispatch
sentinels of the source (`-1` for "no user", falsy `channel_id`) are
unambiguous. -/
def ownerOk : OwnerData → Prop
  | .user u => 0 < u
  | .channel c _ => c < 0

/-- C1's ledger/registry correspondence together with the structural
well-formedness facts needed to maintain it. -/
structure Inv (s : S) : Prop where
  hu : ∀ o, cget s.ucount o = ownerCountU s.video_info s.user_videos o
  hc : ∀ o, cget s.ccount o = ownerCountC s.video_info s.user_videos o
  hdom : ∀ k, amem s.video_info k = amem s.user_videos k
  hvlt : ∀ p ∈ s.video_info, p.1 < s.nextId
  hvnd : (keys s.video_info).Nodup
  hund : (keys s.user_videos).Nodup
  hvk0 : ∀ p ∈ s.video_info, 0 < p.1
  hpos : 0 < s.nextId
  howv : ∀ p ∈ s.user_videos, ownerOk p.2
  hqu : ∀ pq ∈ s.uqueue, ∀ m ∈ pq.2, 0 < m.fromUser
  hqc : ∀ pq ∈ s.cqueue, ∀ m ∈ pq.2, m.chatId < 0

/-- The intermediate state of a user submission between the ledger increment
and either registry tracking or rollback: the user's counter is one above
the registry count. -/
structure InvPlusU (u : Int) (s : S) : Prop where
  hu : ∀ o, o ≠ u → cget s.ucount o = ownerCountU s.video_info s.user_videos o
  huu : cget s.ucount u = ownerCountU s.video_info s.user_videos u + 1
  hc : ∀ o, cget s.ccount o = ownerCountC s.video_info s.user_videos o
  hdom : ∀ k, amem s.video_info k = amem s.user_videos k
  hvlt : ∀ p ∈ s.video_info, p.1 < s.nextId
  hvnd : (keys s.video_info).Nodup
  hund : (keys s.user_videos).Nodup
  hvk0 : ∀ p ∈ s.video_info, 0 < p.1
  hpos : 0 < s.nextId
  howv : ∀ p ∈ s.user_videos, ownerOk p.2
  hqu : ∀ pq ∈ s.uqueue, ∀ m ∈ pq.2, 0 < m.fromUser
  hqc : ∀ pq ∈ s.cqueue, ∀ m ∈ pq.2, m.chatId < 0

/-- Channel counterpart of `InvPlusU`. -/
structure InvPlusC (c : Int) (s : S) : Prop where
  hu : ∀ o, cget s.ucount o = ownerCountU s.video_info s.user_videos o
  hcc : cget s.ccount c = ownerCountC s.video_info s.user_videos c + 1
  hc : ∀ o, o ≠ c → cget s.ccount o = ownerCountC s.video_info s.user_videos o
  hdom : ∀ k, amem s.video_info k = amem s.user_videos k
  hvlt : ∀ p ∈ s.video_info, p.1 < s.nextId
  hvnd : (keys s.video_info).Nodup
  hund : (keys s.user_videos).Nodup
  hvk0 : ∀ p ∈ s.video_info, 0 < p.1
  hpos : 0 < s.nextId
  howv : ∀ p ∈ s.user_videos, ownerOk p.2
  hqu : ∀ pq ∈ s.uqueue, ∀ m ∈ pq.2, 0 < m.fromUser
  hqc : ∀ pq ∈ s.cqueue, ∀ m ∈ pq.2, m.chatId < 0

theorem countP_keywise {α : Type} (l : List (Nat × α)) (g g' : Nat → Bool)
    (h : ∀ p ∈ l, g p.1 = g' p.1) :
    l.countP (fun p => g p.1) = l.countP (fun p => g' p.1) := by
  induction l with
  | nil => rfl
  | cons hd t ih =>
    rw [List.countP_cons, List.countP_cons,
        ih (fun p hp => h p (List.mem_cons_of_mem _ hp)),
        h hd (List.mem_cons_self _ _)]

/-! ### Invariant transfer lemmas for the primitive state updates -/

theorem inv_update_active {s : S} (x : List Int) (h : Inv s) :
    Inv { s with active_users := x } :=
  ⟨h.hu, h.hc, h.hdom, h.hvlt, h.hvnd, h.hund, h.hvk0, h.hpos, h.howv, h.hqu, h.hqc⟩

theorem inv_update_sched {s : S} (x : List (Nat × Nat)) (h : Inv s) :
    Inv { s with sched_map := x } :=
  ⟨h.hu, h.hc, h.hdom, h.hvlt, h.hvnd, h.hund, h.hvk0, h.hpos, h.howv, h.hqu, h.hqc⟩

theorem inv_update_now {s : S} (x : Nat) (h : Inv s) : Inv { s with now := x } :=
  ⟨h.hu, h.hc, h.hdom, h.hvlt, h.hvnd, h.hund, h.hvk0, h.hpos, h.howv, h.hqu, h.hqc⟩

theorem inv_alloc {s : S} (h : Inv s) : Inv { s with nextId := s.nextId + 1 } :=
  ⟨h.hu, h.hc, h.hdom, fun p hp => Nat.lt_succ_of_lt (h.hvlt p hp), h.hvnd, h.hund,
   h.hvk0, Nat.succ_pos _, h.howv, h.hqu, h.hqc⟩

theorem mem_qget {μ : Type} {l : List (Int × List μ)} {k : Int} {m : μ}
    (h : m ∈ qget l k) : ∃ q, aget? l k = some q ∧ m ∈ q := by
  rw [qget] at h
  cases hh : aget? l k with
  | none => rw [hh] at h; simp at h
  | some q => rw [hh] at h; exact ⟨q, rfl, h⟩

theorem inv_add_uqueue {s : S} {k : Int} {m : UMsg} (h : Inv s) (hm : 0 < m.fromUser) :
    Inv { s with uqueue := add_to_queue s.uqueue k m } := by
  refine ⟨h.hu, h.hc, h.hdom, h.hvlt, h.hvnd, h.hund, h.hvk0, h.hpos, h.howv, ?_, h.hqc⟩
  intro pq hpq m' hm'
  rw [add_to_queue, aset] at hpq
  rcases List.mem_cons.1 hpq with hpq | hpq
  · subst hpq
    rcases List.mem_append.1 hm' with hq | hq
    · obtain ⟨q, hq1, hq2⟩ := mem_qget hq
      exact h.hqu _ (aget?_mem hq1) _ hq2
    · have : m' = m := by simpa using hq
      exact this ▸ hm
  · exact h.hqu _ (mem_apop_subset hpq) _ hm'

theorem inv_add_cqueue {s : S} {k : Int} {m : CMsg} (h : Inv s) (hm : m.chatId < 0) :
    Inv { s with cqueue := add_to_queue s.cqueue k m } := by
  refine ⟨h.hu, h.hc, h.hdom, h.hvlt, h.hvnd, h.hund, h.hvk0, h.hpos, h.howv, h.hqu, ?_⟩
  intro pq hpq m' hm'
  rw [add_to_queue, aset] at hpq
  rcases List.mem_cons.1 hpq with hpq | hpq
  · subst hpq
    rcases List.mem_append.1 hm' with hq | hq
    · obtain ⟨q, hq1, hq2⟩ := mem_qget hq
      exact h.hqc _ (aget?_mem hq1) _ hq2
    · have : m' = m := by simpa using hq
      exact this ▸ hm
  · exact h.hqc _ (mem_apop_subset hpq) _ hm'

theorem inv_pop_uqueue {s : S} {e : Int} {m : UMsg} {rest : List UMsg}
    (h : Inv s) (hq : qget s.uqueue e = m :: rest) :
    Inv { s with uqueue := aset s.uqueue e rest } ∧ 0 < m.fromUser := by
  have hget : aget? s.uqueue e = some (m :: rest) := by
    rw [qget] at hq
    cases hh : aget? s.uqueue e with
    | none => rw [hh] at hq; simp at hq
    | some q => rw [hh] at hq; simp at hq; rw [hq]
  have hqm := h.hqu _ (aget?_mem hget)
  refine ⟨⟨h.hu, h.hc, h.hdom, h.hvlt, h.hvnd, h.hund, h.hvk0, h.hpos, h.howv, ?_, h.hqc⟩,
    hqm m (by simp)⟩
  intro pq hpq m' hm'
  rw [aset] at hpq
  rcases List.mem_cons.1 hpq with hpq | hpq
  · subst hpq
    exact hqm m' (List.mem_cons_of_mem _ hm')
  · exact h.hqu _ (mem_apop_subset hpq) _ hm'

theorem inv_pop_cqueue {s : S} {e : Int} {m : CMsg} {rest : List CMsg}
    (h : Inv s) (hq : qget s.cqueue e = m :: rest) :
    Inv { s with cqueue := aset s.cqueue e rest } ∧ m.chatId < 0 := by
  have hget : aget? s.cqueue e = some (m :: rest) := by
    rw [qget] at hq
    cases hh : aget? s.cqueue e with
    | none => rw [hh] at hq; simp at hq
    | some q => rw [hh] at hq; simp at hq; rw [hq]
  have hqm := h.hqc _ (aget?_mem hget)
  refine ⟨⟨h.hu, h.hc, h.hdom, h.hvlt, h.hvnd, h.hund, h.hvk0, h.hpos, h.howv, h.hqu, ?_⟩,
    hqm m (by simp)⟩
  intro pq hpq m' hm'
  rw [aset] at hpq
  rcases List.mem_cons.1 hpq with hpq | hpq
  · subst hpq
    exact hqm m' (List.mem_cons_of_mem _ hm')
  · exact h.hqc _ (mem_apop_subset hpq) _ hm'

/-! ### Ledger increment / rollback / tracking lemmas -/

theorem invPlusU_intro {s : S} (u : Int) (x : List Int) (h : Inv s) :
    InvPlusU u { s with active_users := x
                        ucount := increment_active_videos s.ucount u } := by
  refine ⟨?_, ?_, h.hc, h.hdom, h.hvlt, h.hvnd, h.hund, h.hvk0, h.hpos, h.howv, h.hqu, h.hqc⟩
  · intro o ho
    rw [cget_inc_ne _ _ _ ho]
    exact h.hu o
  · rw [cget_inc_self, h.hu u]

theorem invPlusU_alloc {s : S} {u : Int} (h : InvPlusU u s) :
    InvPlusU u { s with nextId := s.nextId + 1 } :=
  ⟨h.hu, h.huu, h.hc, h.hdom, fun p hp => Nat.lt_succ_of_lt (h.hvlt p hp), h.hvnd,
   h.hund, h.hvk0, Nat.succ_pos _, h.howv, h.hqu, h.hqc⟩

theorem invPlusU_sched {s : S} {u : Int} (x : List (Nat × Nat)) (h : InvPlusU u s) :
    InvPlusU u { s with sched_map := x } :=
  ⟨h.hu, h.huu, h.hc, h.hdom, h.hvlt, h.hvnd, h.hund, h.hvk0, h.hpos, h.howv, h.hqu, h.hqc⟩

theorem inv_of_invPlusU_dec {s : S} {u : Int} (h : InvPlusU u s) :
    Inv { s with ucount := decrement_active_videos s.ucount u } := by
  refine ⟨?_, h.hc, h.hdom, h.hvlt, h.hvnd, h.hund, h.hvk0, h.hpos, h.howv, h.hqu, h.hqc⟩
  intro o
  dsimp only
  by_cases ho : o = u
  · subst ho
    rw [cget_dec_self, h.huu]
    omega
  · rw [cget_dec_ne _ _ _ ho]
    exact h.hu o ho

theorem invPlusC_intro {s : S} (c : Int) (h : Inv s) :
    InvPlusC c { s with ccount := increment_active_videos s.ccount c } := by
  refine ⟨h.hu, ?_, ?_, h.hdom, h.hvlt, h.hvnd, h.hund, h.hvk0, h.hpos, h.howv, h.hqu, h.hqc⟩
  · rw [cget_inc_self, h.hc c]
  · intro o ho
    rw [cget_inc_ne _ _ _ ho]
    exact h.hc o

theorem invPlusC_alloc {s : S} {c : Int} (h : InvPlusC c s) :
    InvPlusC c { s with nextId := s.nextId + 1 } :=
  ⟨h.hu, h.hcc, h.hc, h.hdom, fun p hp => Nat.lt_succ_of_lt (h.hvlt p hp), h.hvnd,
   h.hund, h.hvk0, Nat.succ_pos _, h.howv, h.hqu, h.hqc⟩

theorem invPlusC_sched {s : S} {c : Int} (x : List (Nat × Nat)) (h : InvPlusC c s) :
    InvPlusC c { s with sched_map := x } :=
  ⟨h.hu, h.hcc, h.hc, h.hdom, h.hvlt, h.hvnd, h.hund, h.hvk0, h.hpos, h.howv, h.hqu, h.hqc⟩

theorem inv_of_invPlusC_dec {s : S} {c : Int} (h : InvPlusC c s) :
    Inv { s with ccount := decrement_active_videos s.ccount c } := by
  refine ⟨h.hu, ?_, h.hdom, h.hvlt, h.hvnd, h.hund, h.hvk0, h.hpos, h.howv, h.hqu, h.hqc⟩
  intro o
  dsimp only
  by_cases ho : o = c
  · subst ho
    rw [cget_dec_self, h.hcc]
    omega
  · rw [cget_dec_ne _ _ _ ho]
    exact h.hc o ho

end VideoResBot

namespace VideoResBot

/-! ### Tracking preserves the invariant -/

theorem beq_int_iff (a b : Int) : (a == b) = true ↔ a = b := by
  constructor
  · intro h
    exact eq_of_beq h
  · intro h
    subst h
    exact beq_self_eq_true a

theorem inv_track_user {s : S} {u : Int} {tid : Nat} {e : VideoEntry}
    (hp : InvPlusU u s) (hlt : tid < s.nextId) (ht0 : 0 < tid) (hu0 : 0 < u)
    (hfr : amem s.video_info tid = false) (hfru : amem s.user_videos tid = false) :
    Inv { s with video_info := aset s.video_info tid e
                 user_videos := aset s.user_videos tid (.user u) } := by
  have hcongrU : ∀ o, ∀ p ∈ s.video_info,
      isUserOwned (aset s.user_videos tid (.user u)) o p.1 =
        isUserOwned s.user_videos o p.1 := by
    intro o p hp'
    rw [isUserOwned, isUserOwned,
        aget?_aset_ne _ _ _ _ (mem_fst_ne_of_amem_false hfr hp')]
  have hcongrC : ∀ o, ∀ p ∈ s.video_info,
      isChanOwned (aset s.user_videos tid (.user u)) o p.1 =
        isChanOwned s.user_videos o p.1 := by
    intro o p hp'
    rw [isChanOwned, isChanOwned,
        aget?_aset_ne _ _ _ _ (mem_fst_ne_of_amem_false hfr hp')]
  refine ⟨?_, ?_, ?_, ?_, ?_, ?_, ?_, hp.hpos, ?_, hp.hqu, hp.hqc⟩
  · intro o
    dsimp only
    rw [ownerCountU, countP_aset_fresh _ _ _ _ hfr,
        countP_keywise _ _ _ (hcongrU o)]
    have hgt : isUserOwned (aset s.user_videos tid (.user u)) o tid = (u == o) := by
      rw [isUserOwned, aget?_aset_self]
    rw [hgt]
    by_cases ho : o = u
    · rw [if_pos ((beq_int_iff u o).2 ho.symm), ho, hp.huu]
      rfl
    · have : (u == o) = false := by
        cases hh : u == o
        · rfl
        · exact absurd ((beq_int_iff u o).1 hh).symm ho
      rw [this, if_neg (by simp), hp.hu o ho]
      rfl
  · intro o
    dsimp only
    rw [ownerCountC, countP_aset_fresh _ _ _ _ hfr,
        countP_keywise _ _ _ (hcongrC o)]
    have hgt : isChanOwned (aset s.user_videos tid (.user u)) o tid = false := by
      rw [isChanOwned, aget?_aset_self]
    rw [hgt, if_neg (by simp), hp.hc o]
    rfl
  · intro k
    dsimp only
    by_cases hk : k = tid
    · subst hk
      rw [amem_aset_self, amem_aset_self]
    · rw [amem_aset_ne _ _ _ _ hk, amem_aset_ne _ _ _ _ hk, hp.hdom k]
  · intro p hp'
    dsimp only at hp' ⊢
    rw [aset, apop_of_amem_false hfr] at hp'
    rcases List.mem_cons.1 hp' with hp' | hp'
    · subst hp'
      exact hlt
    · exact hp.hvlt p hp'
  · exact keys_nodup_aset hp.hvnd hfr
  · exact keys_nodup_aset hp.hund hfru
  · intro p hp'
    dsimp only at hp'
    rw [aset, apop_of_amem_false hfr] at hp'
    rcases List.mem_cons.1 hp' with hp' | hp'
    · subst hp'
      exact ht0
    · exact hp.hvk0 p hp'
  · intro p hp'
    dsimp only at hp'
    rw [aset, apop_of_amem_false hfru] at hp'
    rcases List.mem_cons.1 hp' with hp' | hp'
    · subst hp'
      exact hu0
    · exact hp.howv p hp'

theorem inv_track_chan {s : S} {c : Int} {mid : Nat} {tid : Nat} {e : VideoEntry}
    (hp : InvPlusC c s) (hlt : tid < s.nextId) (ht0 : 0 < tid) (hc0 : c < 0)
    (hfr : amem s.video_info tid = false) (hfru : amem s.user_videos tid = false) :
    Inv { s with video_info := aset s.video_info tid e
                 user_videos := aset s.user_videos tid (.channel c mid) } := by
  have hcongrU : ∀ o, ∀ p ∈ s.video_info,
      isUserOwned (aset s.user_videos tid (.channel c mid)) o p.1 =
        isUserOwned s.user_videos o p.1 := by
    intro o p hp'
    rw [isUserOwned, isUserOwned,
        aget?_aset_ne _ _ _ _ (mem_fst_ne_of_amem_false hfr hp')]
  have hcongrC : ∀ o, ∀ p ∈ s.video_info,
      isChanOwned (aset s.user_videos tid (.channel c mid)) o p.1 =
        isChanOwned s.user_videos o p.1 := by
    intro o p hp'
    rw [isChanOwned, isChanOwned,
        aget?_aset_ne _ _ _ _ (mem_fst_ne_of_amem_false hfr hp')]
  refine ⟨?_, ?_, ?_, ?_, ?_, ?_, ?_, hp.hpos, ?_, hp.hqu, hp.hqc⟩
  · intro o
    dsimp only
    rw [ownerCountU, countP_aset_fresh _ _ _ _ hfr,
        countP_keywise _ _ _ (hcongrU o)]
    have hgt : isUserOwned (aset s.user_videos tid (.channel c mid)) o tid = false := by
      rw [isUserOwned, aget?_aset_self]
    rw [hgt, if_neg (by simp), hp.hu o]
    rfl
  · intro o
    dsimp only
    rw [ownerCountC, countP_aset_fresh _ _ _ _ hfr,
        countP_keywise _ _ _ (hcongrC o)]
    have hgt : isChanOwned (aset s.user_videos tid (.channel c mid)) o tid = (c == o) := by
      rw [isChanOwned, aget?_aset_self]
    rw [hgt]
    by_cases ho : o = c
    · rw [if_pos ((beq_int_iff c o).2 ho.symm), ho, hp.hcc]
      rfl
    · have : (c == o) = false := by
        cases hh : c == o
        · rfl
        · exact absurd ((beq_int_iff c o).1 hh).symm ho
      rw [this, if_neg (by simp), hp.hc o ho]
      rfl
  · intro k
    dsimp only
    by_cases hk : k = tid
    · subst hk
      rw [amem_aset_self, amem_aset_self]
    · rw [amem_aset_ne _ _ _ _ hk, amem_aset_ne _ _ _ _ hk, hp.hdom k]
  · intro p hp'
    dsimp only at hp' ⊢
    rw [aset, apop_of_amem_false hfr] at hp'
    rcases List.mem_cons.1 hp' with hp' | hp'
    · subst hp'
      exact hlt
    · exact hp.hvlt p hp'
  · exact keys_nodup_aset hp.hvnd hfr
  · exact keys_nodup_aset hp.hund hfru
  · intro p hp'
    dsimp only at hp'
    rw [aset, apop_of_amem_false hfr] at hp'
    rcases List.mem_cons.1 hp' with hp' | hp'
    · subst hp'
      exact ht0
    · exact hp.hvk0 p hp'
  · intro p hp'
    dsimp only at hp'
    rw [aset, apop_of_amem_false hfru] at hp'
    rcases List.mem_cons.1 hp' with hp' | hp'
    · subst hp'
      exact hc0
    · exact hp.howv p hp'

end VideoResBot

namespace VideoResBot

/-! ### Shape of `clean_up_tracking_info`'s state change -/

theorem clean_up_core_user_spec (tid : Nat) (u : Int) (s : S)
    (ht0 : tid ≠ 0) (hne : u ≠ -1) :
    ∃ A M req, clean_up_core tid (some (.user u)) s =
      ({ s with video_info := apop s.video_info tid
                user_videos := apop s.user_videos tid
                ucount := decrement_active_videos s.ucount u
                active_users := A
                sched_map := M }, req) := by
  unfold clean_up_core
  rw [if_neg ht0]
  dsimp only
  rw [if_pos (⟨hne, rfl⟩ : u ≠ -1 ∧ (false : Bool) = false)]
  cases hsv : aget? s.video_info tid with
  | none =>
    simp only [Option.map_none']
    split_ifs <;> exact ⟨_, _, _, rfl⟩
  | some e =>
    simp only [Option.map_some']
    split_ifs <;> exact ⟨_, _, _, rfl⟩

theorem clean_up_core_chan_spec (tid : Nat) (c : Int) (mid : Nat) (s : S)
    (ht0 : tid ≠ 0) (hc0 : c ≠ 0) :
    ∃ M req, clean_up_core tid (some (.channel c mid)) s =
      ({ s with video_info := apop s.video_info tid
                user_videos := apop s.user_videos tid
                ccount := decrement_active_videos s.ccount c
                sched_map := M }, req) := by
  unfold clean_up_core
  rw [if_neg ht0]
  dsimp only
  rw [if_neg (by
    intro hh
    exact hh.1 rfl)]
  rw [if_pos (⟨rfl, hc0⟩ : (true : Bool) = true ∧ c ≠ 0)]
  cases hsv : aget? s.video_info tid with
  | none =>
    simp only [Option.map_none']
    split_ifs <;> exact ⟨_, _, rfl⟩
  | some e =>
    simp only [Option.map_some']
    split_ifs <;> exact ⟨_, _, rfl⟩

/-! ### Cleanup preserves the invariant -/

theorem inv_clean_up_user {s : S} {tid : Nat} {u : Int} (h : Inv s)
    (hget : aget? s.user_videos tid = some (.user u))
    (hmem : amem s.video_info tid = true) :
    Inv (clean_up_core tid (some (.user u)) s).1 := by
  have ht0 : tid ≠ 0 := by
    obtain ⟨v, hv⟩ := (amem_true_iff _ _).1 hmem
    have := h.hvk0 _ (aget?_mem hv)
    omega
  have hu0 : 0 < u := by
    have := h.howv _ (aget?_mem hget)
    simpa [ownerOk] using this
  have hne : u ≠ -1 := by omega
  obtain ⟨A, M, req, hspec⟩ := clean_up_core_user_spec tid u s ht0 hne
  rw [hspec]
  have hcongU : ∀ o, (apop s.video_info tid).countP
        (fun p => isUserOwned (apop s.user_videos tid) o p.1) =
      (apop s.video_info tid).countP (fun p => isUserOwned s.user_videos o p.1) := by
    intro o
    apply countP_keywise
    intro p hp
    rw [isUserOwned, isUserOwned, aget?_apop_ne _ _ _ (fst_ne_of_mem_apop hp)]
  have hcongC : ∀ o, (apop s.video_info tid).countP
        (fun p => isChanOwned (apop s.user_videos tid) o p.1) =
      (apop s.video_info tid).countP (fun p => isChanOwned s.user_videos o p.1) := by
    intro o
    apply countP_keywise
    intro p hp
    rw [isChanOwned, isChanOwned, aget?_apop_ne _ _ _ (fst_ne_of_mem_apop hp)]
  refine ⟨?_, ?_, ?_, ?_, ?_, ?_, ?_, h.hpos, ?_, h.hqu, h.hqc⟩
  · intro o
    dsimp only
    rw [ownerCountU, hcongU o]
    by_cases ho : o = u
    · subst ho
      have hg : isUserOwned s.user_videos o tid = true := by
        rw [isUserOwned, hget]
        exact (beq_int_iff o o).2 rfl
      have hstep := countP_apop_pos s.video_info tid
        (isUserOwned s.user_videos o) h.hvnd hmem hg
      have hcnt := h.hu o
      rw [ownerCountU] at hcnt
      rw [cget_dec_self]
      omega
    · have hg : isUserOwned s.user_videos o tid = false := by
        rw [isUserOwned, hget]
        show (u == o) = false
        cases hh : u == o
        · rfl
        · exact absurd ((beq_int_iff u o).1 hh).symm ho
      rw [cget_dec_ne _ _ _ ho, countP_apop_neg _ _ _ hg]
      exact h.hu o
  · intro o
    dsimp only
    rw [ownerCountC, hcongC o]
    have hg : isChanOwned s.user_videos o tid = false := by
      rw [isChanOwned, hget]
    rw [countP_apop_neg _ _ _ hg]
    exact h.hc o
  · intro k
    dsimp only
    by_cases hk : k = tid
    · subst hk
      rw [amem_apop_self, amem_apop_self]
    · rw [amem_apop_ne _ _ _ hk, amem_apop_ne _ _ _ hk]
      exact h.hdom k
  · intro p hp
    exact h.hvlt p (mem_apop_subset hp)
  · exact keys_nodup_apop h.hvnd
  · exact keys_nodup_apop h.hund
  · intro p hp
    exact h.hvk0 p (mem_apop_subset hp)
  · intro p hp
    exact h.howv p (mem_apop_subset hp)

theorem inv_clean_up_chan {s : S} {tid : Nat} {c : Int} {mid : Nat} (h : Inv s)
    (hget : aget? s.user_videos tid = some (.channel c mid))
    (hmem : amem s.video_info tid = true) :
    Inv (clean_up_core tid (some (.channel c mid)) s).1 := by
  have ht0 : tid ≠ 0 := by
    obtain ⟨v, hv⟩ := (amem_true_iff _ _).1 hmem
    have := h.hvk0 _ (aget?_mem hv)
    omega
  have hc0' : c < 0 := by
    have := h.howv _ (aget?_mem hget)
    simpa [ownerOk] using this
  have hc0 : c ≠ 0 := by omega
  obtain ⟨M, req, hspec⟩ := clean_up_core_chan_spec tid c mid s ht0 hc0
  rw [hspec]
  have hcongU : ∀ o, (apop s.video_info tid).countP
        (fun p => isUserOwned (apop s.user_videos tid) o p.1) =
      (apop s.video_info tid).countP (fun p => isUserOwned s.user_videos o p.1) := by
    intro o
    apply countP_keywise
    intro p hp
    rw [isUserOwned, isUserOwned, aget?_apop_ne _ _ _ (fst_ne_of_mem_apop hp)]
  have hcongC : ∀ o, (apop s.video_info tid).countP
        (fun p => isChanOwned (apop s.user_videos tid) o p.1) =
      (apop s.video_info tid).countP (fun p => isChanOwned s.user_videos o p.1) := by
    intro o
    apply countP_keywise
    intro p hp
    rw [isChanOwned, isChanOwned, aget?_apop_ne _ _ _ (fst_ne_of_mem_apop hp)]
  refine ⟨?_, ?_, ?_, ?_, ?_, ?_, ?_, h.hpos, ?_, h.hqu, h.hqc⟩
  · intro o
    dsimp only
    rw [ownerCountU, hcongU o]
    have hg : isUserOwned s.user_videos o tid = false := by
      rw [isUserOwned, hget]
    rw [countP_apop_neg _ _ _ hg]
    exact h.hu o
  · intro o
    dsimp only
    rw [ownerCountC, hcongC o]
    by_cases ho : o = c
    · subst ho
      have hg : isChanOwned s.user_videos o tid = true := by
        rw [isChanOwned, hget]
        exact (beq_int_iff o o).2 rfl
      have hstep := countP_apop_pos s.video_info tid
        (isChanOwned s.user_videos o) h.hvnd hmem hg
      have hcnt := h.hc o
      rw [ownerCountC] at hcnt
      rw [cget_dec_self]
      omega
    · have hg : isChanOwned s.user_videos o tid = false := by
        rw [isChanOwned, hget]
        show (c == o) = false
        cases hh : c == o
        · rfl
        · exact absurd ((beq_int_iff c o).1 hh).symm ho
      rw [cget_dec_ne _ _ _ ho, countP_apop_neg _ _ _ hg]
      exact h.hc o
  · intro k
    dsimp only
    by_cases hk : k = tid
    · subst hk
      rw [amem_apop_self, amem_apop_self]
    · rw [amem_apop_ne _ _ _ hk, amem_apop_ne _ _ _ hk]
      exact h.hdom k
  · intro p hp
    exact h.hvlt p (mem_apop_subset hp)
  · exact keys_nodup_apop h.hvnd
  · exact keys_nodup_apop h.hund
  · intro p hp
    exact h.hvk0 p (mem_apop_subset hp)
  · intro p hp
    exact h.howv p (mem_apop_subset hp)

end VideoResBot

namespace VideoResBot

/-! ### Preservation of the invariant by the submission engine -/

theorem inv_capn_state_user {u : Int} {s : S} (hp : InvPlusU u s) :
    Inv (capn_state u false s) := by
  unfold capn_state
  rw [if_neg Bool.false_ne_true]
  unfold remove_user_from_active_if_no_videos
  split_ifs
  · exact inv_of_invPlusU_dec hp
  · exact inv_update_active _ (inv_of_invPlusU_dec hp)

theorem inv_process_channel_video {m : CMsg} {s : S} (h : Inv s) (hm : m.chatId < 0) :
    Inv (process_channel_video m s).1 := by
  unfold process_channel_video
  by_cases h1 : m.hasAlternatives = true
  · rw [if_pos h1]
    exact h
  rw [if_neg h1]
  by_cases h2 : (!m.sizeOk) = true
  · rw [if_pos h2]
    exact h
  rw [if_neg h2]
  by_cases h3 : (!m.formatOk) = true
  · rw [if_pos h3]
    exact h
  rw [if_neg h3]
  by_cases h4 : cget s.ccount m.chatId ≥ MAX_CONCURRENT_VIDEOS_CHANNEL
  · rw [if_pos h4]
    exact inv_add_cqueue h hm
  rw [if_neg h4]
  by_cases h5 : (!m.forwardOk) = true
  · rw [if_pos h5]
    exact inv_of_invPlusC_dec (invPlusC_intro m.chatId h)
  rw [if_neg h5]
  by_cases h6 : (!m.schedOk) = true
  · rw [if_pos h6]
    exact inv_of_invPlusC_dec (invPlusC_alloc (invPlusC_intro m.chatId h))
  rw [if_neg h6]
  refine inv_track_chan
    (invPlusC_sched _ (invPlusC_alloc (invPlusC_alloc (invPlusC_intro m.chatId h))))
    ?_ h.hpos hm ?_ ?_
  · show s.nextId < s.nextId + 1 + 1
    omega
  · exact amem_eq_false_of_keys_lt h.hvlt
  · show amem s.user_videos s.nextId = false
    rw [← h.hdom]
    exact amem_eq_false_of_keys_lt h.hvlt

theorem inv_channel_video_handler {m : CMsg} {s : S} (h : Inv s) (hm : m.chatId < 0) :
    Inv (channel_video_handler m s).1 := by
  unfold channel_video_handler
  by_cases h1 : (!m.chanActive) = true
  · rw [if_pos h1]
    exact h
  rw [if_neg h1]
  by_cases h2 : s.video_info.length ≥ MAX_QUEUED_VIDEOS
  · rw [if_pos h2]
    exact h
  rw [if_neg h2]
  exact inv_process_channel_video h hm

theorem inv_pvh_admission {drain : S → S × List Effect} {m : UMsg} {s1 : S}
    (hd : ∀ st, Inv st → Inv (drain st).1)
    (hm : 0 < m.fromUser) (h1' : Inv s1) : Inv (pvh_admission drain m s1).1 := by
  unfold pvh_admission
  by_cases hq : cget s1.ucount m.fromUser ≥
      (if m.isPremium then MAX_CONCURRENT_VIDEOS_PREMIUM
       else MAX_CONCURRENT_VIDEOS_REGULAR)
  · rw [if_pos hq]
    exact inv_add_uqueue h1' hm
  rw [if_neg hq]
  have hp2 : InvPlusU m.fromUser
      { s1 with active_users := sadd s1.active_users m.fromUser
                ucount := increment_active_videos s1.ucount m.fromUser } :=
    invPlusU_intro m.fromUser _ h1'
  by_cases hf : (!m.forwardOk) = true
  · rw [if_pos hf]
    exact hd _ (inv_capn_state_user hp2)
  rw [if_neg hf]
  have hp3 := invPlusU_alloc hp2
  by_cases hi : m.instant = true
  · rw [if_pos hi]
    exact hd _ (inv_capn_state_user hp3)
  rw [if_neg hi]
  by_cases hbusy : s1.video_info.length ≥ MAX_QUEUED_VIDEOS
  · rw [if_pos hbusy]
    exact hd _ (inv_capn_state_user hp3)
  rw [if_neg hbusy]
  by_cases hsz : (!m.sizeOk) = true
  · rw [if_pos hsz]
    exact hd _ (inv_capn_state_user hp3)
  rw [if_neg hsz]
  by_cases hfm : (!m.formatOk) = true
  · rw [if_pos hfm]
    exact hd _ (inv_capn_state_user hp3)
  rw [if_neg hfm]
  by_cases hsc : (!m.schedOk) = true
  · rw [if_pos hsc]
    exact hd _ (inv_capn_state_user hp3)
  rw [if_neg hsc]
  refine inv_track_user (invPlusU_sched _ (invPlusU_alloc hp3)) ?_ h1'.hpos hm ?_ ?_
  · show s1.nextId < s1.nextId + 1 + 1
    omega
  · exact amem_eq_false_of_keys_lt h1'.hvlt
  · show amem s1.user_videos s1.nextId = false
    rw [← h1'.hdom]
    exact amem_eq_false_of_keys_lt h1'.hvlt

theorem inv_pvh_core {drain : S → S × List Effect} {m : UMsg} {s : S}
    (hd : ∀ st, Inv st → Inv (drain st).1)
    (hm : 0 < m.fromUser) (h : Inv s) : Inv (pvh_core drain m s).1 := by
  unfold pvh_core
  by_cases h1 : m.isBanned = true
  · rw [if_pos h1]
    exact h
  rw [if_neg h1]
  by_cases h2 : (!m.hasChannel) = true
  · rw [if_pos h2]
    exact h
  rw [if_neg h2]
  by_cases hst : m.fromUser ∈ s.active_users ∧ userHasActiveEntry s m.fromUser = false
  · rw [if_pos hst]
    exact inv_pvh_admission hd hm (inv_update_active _ h)
  · rw [if_neg hst]
    exact inv_pvh_admission hd hm h

theorem inv_pnfq_core {submitU : UMsg → S → S × List Effect × Outcome}
    {entity : Int} {isChan : Bool} {s : S}
    (hs : ∀ m st, 0 < m.fromUser → Inv st → Inv (submitU m st).1)
    (h : Inv s) : Inv (pnfq_core submitU entity isChan s).1 := by
  unfold pnfq_core
  cases isChan with
  | true =>
    rw [if_pos rfl]
    unfold get_next_from_queue
    cases hq : qget s.cqueue entity with
    | nil => exact h
    | cons m rest =>
      obtain ⟨h', hm'⟩ := inv_pop_cqueue h hq
      exact inv_process_channel_video h' hm'
  | false =>
    rw [if_neg Bool.false_ne_true]
    unfold get_next_from_queue
    cases hq : qget s.uqueue entity with
    | nil => exact h
    | cons m rest =>
      obtain ⟨h', hm'⟩ := inv_pop_uqueue h hq
      exact hs m _ hm' h'

theorem engine_inv : ∀ fuel,
    (∀ m s, 0 < m.fromUser → Inv s → Inv (engine fuel (.pvh m) s).1)
    ∧ (∀ e b s, Inv s → Inv (engine fuel (.pnfq e b) s).1) := by
  intro fuel
  induction fuel with
  | zero => exact ⟨fun m s _ h => h, fun e b s h => h⟩
  | succ n ih =>
    obtain ⟨ihp, ihq⟩ := ih
    refine ⟨fun m s hm h => ?_, fun e b s h => ?_⟩
    · exact inv_pvh_core (fun st hst => ihq m.fromUser false st hst) hm h
    · exact inv_pnfq_core (fun m' st hm' hst => ihp m' st hm' hst) h

theorem inv_process_video_handler {fuel : Nat} {m : UMsg} {s : S}
    (hm : 0 < m.fromUser) (h : Inv s) : Inv (process_video_handler fuel m s).1 :=
  (engine_inv fuel).1 m s hm h

theorem inv_process_next_from_queue {fuel : Nat} {e : Int} {b : Bool} {s : S}
    (h : Inv s) : Inv (process_next_from_queue fuel e b s).1 :=
  (engine_inv fuel).2 e b s h

theorem inv_run_drain {fuel : Nat} {req : Option (Int × Bool)} {s : S}
    (h : Inv s) : Inv (run_drain fuel req s).1 := by
  cases req with
  | none => exact h
  | some p =>
    obtain ⟨e, b⟩ := p
    exact inv_process_next_from_queue h

end VideoResBot

namespace VideoResBot

/-! ### Preservation by cancellation, completion handling and the sweep -/

theorem inv_cancel {fuel : Nat} {uid : Int} {s : S} (h : Inv s) :
    Inv (cancel_command_handler fuel uid s).1 := by
  unfold cancel_command_handler
  by_cases h1 : cget s.ucount uid = 0 ∧ uid ∉ s.active_users
  · rw [if_pos h1]
    exact h
  rw [if_neg h1]
  cases hf : s.user_videos.find?
      (fun p => p.2 == OwnerData.user uid && amem s.video_info p.1) with
  | none =>
    split_ifs
    · exact inv_update_active _ h
    · exact h
  | some p =>
    obtain ⟨tid, d⟩ := p
    have hpred := List.find?_some hf
    have hmem1 := List.mem_of_find?_eq_some hf
    rw [Bool.and_eq_true] at hpred
    have hd : d = OwnerData.user uid := by
      have := hpred.1
      simpa using this
    have hvi : amem s.video_info tid = true := hpred.2
    have hget : aget? s.user_videos tid = some d :=
      aget?_eq_of_mem_nodup h.hund hmem1
    subst hd
    have hclean : Inv (clean_up_core tid (some (.user uid)) s).1 :=
      inv_clean_up_user h hget hvi
    dsimp only
    by_cases hrem : cget (clean_up_core tid (some (.user uid)) s).1.ucount uid > 0
    · rw [if_pos hrem]
      exact inv_run_drain hclean
    · rw [if_neg hrem]
      exact inv_run_drain (inv_update_active _ hclean)

theorem inv_handle_processed {fuel : Nat} {tid : Nat} {jh : Bool} {s : S} (h : Inv s) :
    Inv (handle_processed_video fuel tid jh s).1 := by
  unfold handle_processed_video
  by_cases hmem : amem s.video_info tid = false
  · rw [if_pos hmem]
    cases hf : s.sched_map.find? (fun p => p.2 == tid) with
    | none => exact h
    | some p =>
      obtain ⟨sid, t⟩ := p
      exact inv_update_sched _ h
  · rw [if_neg hmem]
    have hmem' : amem s.video_info tid = true := by
      cases hh : amem s.video_info tid
      · exact absurd hh hmem
      · rfl
    have hdom := h.hdom tid
    rw [hmem'] at hdom
    obtain ⟨d, hd⟩ := (amem_true_iff _ _).1 hdom.symm
    rw [hd]
    have hcl : Inv (clean_up_core tid (some d) s).1 := by
      cases d with
      | user u => exact inv_clean_up_user h hd hmem'
      | channel c mid => exact inv_clean_up_chan h hd hmem'
    by_cases hjh : jh = false
    · rw [if_pos hjh]
      exact inv_run_drain hcl
    · rw [if_neg hjh]
      exact inv_run_drain hcl

theorem inv_sweep_go {fuel : Nat} {probe : Nat → ProbeResult}
    (snapshot : List (Nat × VideoEntry)) (acc : List Effect) {s : S} (h : Inv s) :
    Inv (sweep_go fuel probe snapshot s acc).1 := by
  induction snapshot generalizing s acc with
  | nil => exact h
  | cons hd rest ih =>
    obtain ⟨tid, e⟩ := hd
    unfold sweep_go
    by_cases h1 : e.scheduledMsgId = 0
    · rw [if_pos h1]
      exact ih _ h
    rw [if_neg h1]
    by_cases h2 : s.now - e.timestamp > VIDEO_TIMEOUT
    · rw [if_pos h2]
      exact h
    rw [if_neg h2]
    cases probe tid with
    | copyFail => exact ih _ h
    | pending => exact ih _ h
    | done =>
      by_cases h3 : amem s.video_info tid = true
      · rw [if_pos h3]
        exact ih _ (inv_handle_processed h)
      · rw [if_neg h3]
        exact ih _ h

theorem inv_sweep_tick {fuel : Nat} {probe : Nat → ProbeResult} {s : S} (h : Inv s) :
    Inv (sweep_tick fuel probe s).1 :=
  inv_sweep_go _ _ h

theorem inv_init : Inv initState := by
  refine ⟨?_, ?_, ?_, ?_, ?_, ?_, ?_, ?_, ?_, ?_, ?_⟩ <;>
    simp [initState, cget, ownerCountU, ownerCountC, keys, amem, aget?]

end VideoResBot

namespace VideoResBot

/-! ### The operational step relation and reachability

Steps are the public entry points of the Lifecycle Coordinator, each run
to completion (the source is single-threaded; §5 of its design).  Side
conditions record Telegram's identifier ranges: user ids are positive and
channel ids negative. -/

inductive Step : S → S → Prop
  | submitUser (s : S) (fuel : Nat) (m : UMsg) (hm : 0 < m.fromUser) :
      Step s (process_video_handler fuel m s).1
  | submitChannel (s : S) (m : CMsg) (hm : m.chatId < 0) :
      Step s (channel_video_handler m s).1
  | cancel (s : S) (fuel : Nat) (uid : Int) :
      Step s (cancel_command_handler fuel uid s).1
  | sweep (s : S) (fuel : Nat) (probe : Nat → ProbeResult) :
      Step s (sweep_tick fuel probe s).1
  | advanceClock (s : S) (t : Nat) (h : s.now ≤ t) : Step s { s with now := t }

inductive Reachable : S → Prop
  | init : Reachable initState
  | step {s s' : S} : Reachable s → Step s s' → Reachable s'

theorem inv_reachable {s : S} (h : Reachable s) : Inv s := by
  induction h with
  | init => exact inv_init
  | step _ hs ih =>
    cases hs with
    | submitUser fuel m hm => exact inv_process_video_handler hm ih
    | submitChannel m hm => exact inv_channel_video_handler ih hm
    | cancel fuel uid => exact inv_cancel ih
    | sweep fuel probe => exact inv_sweep_tick ih
    | advanceClock t ht => exact inv_update_now _ ih

end VideoResBot

namespace VideoResBot

/-! ### Queue computation lemmas -/

theorem qget_aset_self {μ : Type} (l : List (Int × List μ)) (k : Int) (q : List μ) :
    qget (aset l k q) k = q := by
  rw [qget, aget?_aset_self]
  rfl

theorem qget_add_self {μ : Type} (l : List (Int × List μ)) (k : Int) (m : μ) :
    qget (add_to_queue l k m) k = qget l k ++ [m] := by
  rw [add_to_queue, qget_aset_self]

theorem drain_empty (fuel : Nat) (uid : Int) (s : S)
    (hq : qget s.uqueue uid = []) :
    engine fuel (.pnfq uid false) s = (s, [], .drained) := by
  cases fuel with
  | zero => rfl
  | succ n =>
    show pnfq_core _ uid false s = (s, [], .drained)
    unfold pnfq_core
    rw [if_neg Bool.false_ne_true]
    unfold get_next_from_queue
    rw [hq]

/-! ### Concrete scenarios used as witnesses and counterexamples -/

def c1msg : UMsg := ⟨5, false, true, false, 100, 60, true, false, true, true, true⟩

def c1state : S := (process_video_handler 10 c1msg initState).1

/-- `c1state` (user 5 with one accepted in-flight job, ledger 1) after the
same user submits a second video whose acknowledgment reply raises. -/
def c1fault : S := (pvh_ack_fault 10 c1msg c1state).1

def c2entry : VideoEntry := ⟨5, 2, 0, 100, 60⟩

/-- A state with one tracked user job that is 3700 seconds old (past the
3600-second `VIDEO_TIMEOUT`). -/
def c2state : S := ⟨[(1, c2entry)], [(1, .user 5)], [5], [(2, 1)], [], [], [(5, 1)], [], 3, 3700⟩

/-- A premium user (id 7) with two in-flight jobs (transfer ids 1 and 2). -/
def c3state : S :=
  ⟨[(1, ⟨7, 8, 0, 1, 1⟩), (2, ⟨7, 9, 0, 1, 1⟩)], [(1, .user 7), (2, .user 7)],
   [7], [(8, 1), (9, 2)], [], [], [(7, 2)], [], 10, 0⟩

def c3once : S := (clean_up_tracking_info 10 1 (some (.user 7)) c3state).1

def c3twice : S := (clean_up_tracking_info 10 1 (some (.user 7)) c3once).1

/-- A state with the registry at the global cap: 99 channel jobs plus one
job of user 5, who is at their (regular) concurrency limit. -/
def c4state : S :=
  ⟨(500, ⟨5, 501, 0, 1, 1⟩) :: (List.range 99).map (fun i => (i + 1, ⟨-1, 200, 0, 1, 1⟩)),
   (500, .user 5) :: (List.range 99).map (fun i => (i + 1, .channel (-100) (i + 1))),
   [5], [], [], [], [(5, 1)], [(-100, 99)], 600, 0⟩

def c4msg : UMsg := ⟨5, false, true, false, 1, 1, true, false, true, true, true⟩

/-- A stale state: user 5 is in `active_users` but owns no job, has count 0
and an empty queue (reachable when a queued job of a user who got banned
is drained and dropped). -/
def c9state : S := { initState with active_users := [5] }

/-! ### Claim C1 -/

/-- C1 counterexample: the ledger/registry equality does NOT hold at all
times.  From the (reachable) state after one accepted submission by user 5
— ledger count 1, one registry entry owned by 5 — the same user submits
again and the acknowledgment reply of `private.py` line 99 raises: the
top-level `finally` block runs `cleanup_and_process_next` with no matching
increment, so the ledger drops to 0 while the first job is still recorded
in the registry. -/
theorem c1_ack_fault_breaks_ledger :
    cget c1fault.ucount 5 = 0 ∧
    ownerCountU c1fault.video_info c1fault.user_videos 5 = 1 := by decide

/-- C1 amended: provided the bot's own status sends never fail — in
particular the acknowledgment reply (`private.py` line 99) and the
queue-position edit (line 116) — in every reachable state, for every owner
the Concurrency Ledger count equals the number of Job Registry
(`video_info`) entries whose reverse-map entry in `user_videos` is that
owner — the bare id for user owners, a tuple with that first component for
channel owners.  (`Reachable` closes the fault-free operations over the
initial state, so the theorem quantifies exactly over the send-fault-free
runs.) -/
theorem c1_ledger_matches_registry (s : S) (h : Reachable s) :
    (∀ o, cget s.ucount o = ownerCountU s.video_info s.user_videos o) ∧
    (∀ o, cget s.ccount o = ownerCountC s.video_info s.user_videos o) :=
  ⟨(inv_reachable h).hu, (inv_reachable h).hc⟩

/-- Witness for C1 at the reachable state after one accepted submission. -/
theorem c1_ledger_matches_registry_witness :
    (∀ o, cget c1state.ucount o = ownerCountU c1state.video_info c1state.user_videos o) ∧
    (∀ o, cget c1state.ccount o = ownerCountC c1state.video_info c1state.user_videos o) :=
  c1_ledger_matches_registry c1state
    (Reachable.step Reachable.init (Step.submitUser initState 10 c1msg (by decide)))

/-! ### Claim C2 -/

/-- C2 (code bug): a tracked job whose age exceeds `VIDEO_TIMEOUT` is NOT
transitioned to TimedOut.  `check_video_timeout` executes
`from handlers.video import handle_video_timeout`, which raises
ImportError (`handlers/video/__init__.py` exports no such name), aborting
the whole sweep iteration: the job stays in the registry, no notification
and no cleanup happen, and nothing else is probed that tick — whatever
the probe would have answered. -/
theorem c2_timeout_tick_aborts :
    c2state.now - c2entry.timestamp > VIDEO_TIMEOUT ∧
    amem c2state.video_info 1 = true ∧
    (∀ probe : Nat → ProbeResult, sweep_tick 10 probe c2state = (c2state, [], true)) :=
  ⟨by decide, by decide, fun _ => rfl⟩

/-! ### Claim C3 -/

/-- C3 counterexample: invoking the cleanup routine twice with the same
job id performs the ledger decrement twice, not once.  User 7 has two
in-flight jobs and count 2; after cleaning job 1 once the count is 1, and
the second invocation drops it to 0 although job 2 is still tracked. -/
theorem c3_cleanup_not_idempotent :
    cget c3once.ucount 7 = 1 ∧ cget c3twice.ucount 7 = 0 ∧
    amem c3twice.video_info 2 = true := by decide

/-- C3 amended: `clean_up_tracking_info` is idempotent only on the registry
maps.  A second invocation with the same (now absent) job id leaves
`video_info`/`user_videos` untouched but performs the ledger decrement
again (clamped at zero, with the conditional active-set removal) and
schedules another queue-drain for the owner. -/
theorem c3_cleanup_repeats_decrement_and_drain (fuel : Nat) (tid : Nat) (u : Int)
    (s : S) (ht0 : tid ≠ 0) (hu : 0 < u)
    (hvi : aget? s.video_info tid = none) (huv : aget? s.user_videos tid = none) :
    clean_up_tracking_info fuel tid (some (.user u)) s =
      run_drain fuel (some (u, false))
        (if cget (decrement_active_videos s.ucount u) u = 0 ∧
            has_queued_videos s.uqueue u = false then
          { s with ucount := decrement_active_videos s.ucount u
                   active_users := sdel s.active_users u }
        else { s with ucount := decrement_active_videos s.ucount u }) := by
  have hne : u ≠ -1 := by omega
  unfold clean_up_tracking_info clean_up_core
  rw [if_neg ht0]
  dsimp only
  rw [if_pos (⟨hne, rfl⟩ : u ≠ -1 ∧ (false : Bool) = false),
      apop_of_aget?_eq_none _ _ hvi, apop_of_aget?_eq_none _ _ huv, hvi]
  simp only [Option.map_none', Bool.false_eq_true, if_false]
  rw [if_pos (⟨by omega, by omega⟩ : u ≠ 0 ∧ u ≠ -1)]

/-- Witness for the amended C3 at the concrete second invocation. -/
theorem c3_cleanup_repeats_witness :
    clean_up_tracking_info 10 1 (some (.user 7)) c3once =
      run_drain 10 (some (7, false))
        (if cget (decrement_active_videos c3once.ucount 7) 7 = 0 ∧
            has_queued_videos c3once.uqueue 7 = false then
          { c3once with ucount := decrement_active_videos c3once.ucount 7
                        active_users := sdel c3once.active_users 7 }
        else { c3once with ucount := decrement_active_videos c3once.ucount 7 }) :=
  c3_cleanup_repeats_decrement_and_drain 10 1 7 c3once (by decide) (by decide)
    (by decide) (by decide)

/-! ### Claim C6 -/

/-- C6: the Queue Store is FIFO per owner: enqueuing A, B, C onto an
owner's empty queue and dequeuing three times yields A, B, C in order,
after which the queue is empty; other owners' queues are untouched. -/
theorem c6_queue_fifo_per_owner {μ : Type} (l : List (Int × List μ)) (o o' : Int)
    (a b c : μ) (h : qget l o = []) (ho : o' ≠ o) :
    (get_next_from_queue (add_to_queue (add_to_queue (add_to_queue l o a) o b) o c) o).1
        = some a ∧
    (get_next_from_queue
      (get_next_from_queue
        (add_to_queue (add_to_queue (add_to_queue l o a) o b) o c) o).2 o).1 = some b ∧
    (get_next_from_queue
      (get_next_from_queue
        (get_next_from_queue
          (add_to_queue (add_to_queue (add_to_queue l o a) o b) o c) o).2 o).2 o).1
        = some c ∧
    qget (get_next_from_queue
      (get_next_from_queue
        (get_next_from_queue
          (add_to_queue (add_to_queue (add_to_queue l o a) o b) o c) o).2 o).2 o).2 o = [] ∧
    qget (add_to_queue (add_to_queue (add_to_queue l o a) o b) o c) o' = qget l o' := by
  have h3 : qget (add_to_queue (add_to_queue (add_to_queue l o a) o b) o c) o
      = [a, b, c] := by
    rw [qget_add_self, qget_add_self, qget_add_self, h]
    rfl
  refine ⟨?_, ?_, ?_, ?_, ?_⟩
  · unfold get_next_from_queue
    rw [h3]
  · unfold get_next_from_queue
    rw [h3]
    dsimp only
    rw [qget_aset_self]
  · unfold get_next_from_queue
    rw [h3]
    dsimp only
    rw [qget_aset_self]
    dsimp only
    rw [qget_aset_self]
  · unfold get_next_from_queue
    rw [h3]
    dsimp only
    rw [qget_aset_self]
    dsimp only
    rw [qget_aset_self]
    dsimp only
    rw [qget_aset_self]
  · rw [add_to_queue, qget, aget?_aset_ne _ _ _ _ ho, ← qget]
    rw [add_to_queue, qget, aget?_aset_ne _ _ _ _ ho, ← qget]
    rw [add_to_queue, qget, aget?_aset_ne _ _ _ _ ho, ← qget]

/-- Witness for C6 on a concrete queue table. -/
theorem c6_queue_fifo_witness :
    (get_next_from_queue (add_to_queue (add_to_queue (add_to_queue
        ([] : List (Int × List Nat)) 1 10) 1 20) 1 30) 1).1 = some 10 ∧
    (get_next_from_queue (get_next_from_queue (add_to_queue (add_to_queue (add_to_queue
        ([] : List (Int × List Nat)) 1 10) 1 20) 1 30) 1).2 1).1 = some 20 ∧
    (get_next_from_queue (get_next_from_queue (get_next_from_queue
      (add_to_queue (add_to_queue (add_to_queue
        ([] : List (Int × List Nat)) 1 10) 1 20) 1 30) 1).2 1).2 1).1 = some 30 ∧
    qget (get_next_from_queue (get_next_from_queue (get_next_from_queue
      (add_to_queue (add_to_queue (add_to_queue
        ([] : List (Int × List Nat)) 1 10) 1 20) 1 30) 1).2 1).2 1).2 1 = [] ∧
    qget (add_to_queue (add_to_queue (add_to_queue
        ([] : List (Int × List Nat)) 1 10) 1 20) 1 30) 2 = qget ([] : List (Int × List Nat)) 2 :=
  c6_queue_fifo_per_owner [] 1 2 10 20 30 (by decide) (by decide)

/-! ### Claim C8 -/

/-- C8: a completion probe that lands on a job no longer present in the
registry (e.g. cancelled between snapshot and probe, whose cleanup also
scrubbed its schedule-map entry) is discarded: the completion handler
performs no delivery, no ledger decrement and no state change at all. -/
theorem c8_registry_miss_noop (fuel : Nat) (tid : Nat) (jh : Bool) (s : S)
    (hmiss : amem s.video_info tid = false)
    (hmap : s.sched_map.find? (fun p => p.2 == tid) = none) :
    handle_processed_video fuel tid jh s = (s, []) := by
  unfold handle_processed_video
  rw [if_pos hmiss, hmap]

/-- Witness for C8: probing transfer id 9 in the C2 state (9 untracked). -/
theorem c8_registry_miss_noop_witness :
    handle_processed_video 10 9 true c2state = (c2state, []) :=
  c8_registry_miss_noop 10 9 true c2state (by decide) (by decide)

/-! ### Claim C9 -/

/-- C9 counterexample: for a user present in the stale `active_users` set
with counter 0 and nothing tracked or queued, `/cancel` reports nothing to
cancel but still mutates the state (it discards the stale entry). -/
theorem c9_cancel_mutates_stale_active :
    (cancel_command_handler 10 5 c9state).2.2 = .nothingToCancel ∧
    (cancel_command_handler 10 5 c9state).1 ≠ c9state ∧
    (cancel_command_handler 10 5 c9state).1.active_users = [] := by decide

/-- C9 amended: `cancel` for an owner with no in-flight job in the registry
returns NothingToCancel; the ledger, registry, queues and schedule map are
unchanged and no queue-drain runs; the only possible change is dropping a
stale entry for that owner from the presentational `active_users` set, and
when the owner is not in that set the state is fully unchanged. -/
theorem c9_cancel_nothing_no_side_effects (fuel : Nat) (uid : Int) (s : S)
    (hnone : s.user_videos.find?
      (fun p => p.2 == OwnerData.user uid && amem s.video_info p.1) = none) :
    (cancel_command_handler fuel uid s).2.2 = .nothingToCancel ∧
    (cancel_command_handler fuel uid s).1.ucount = s.ucount ∧
    (cancel_command_handler fuel uid s).1.ccount = s.ccount ∧
    (cancel_command_handler fuel uid s).1.video_info = s.video_info ∧
    (cancel_command_handler fuel uid s).1.user_videos = s.user_videos ∧
    (cancel_command_handler fuel uid s).1.uqueue = s.uqueue ∧
    (cancel_command_handler fuel uid s).1.cqueue = s.cqueue ∧
    (cancel_command_handler fuel uid s).1.sched_map = s.sched_map ∧
    (uid ∉ s.active_users → (cancel_command_handler fuel uid s).1 = s) := by
  unfold cancel_command_handler
  by_cases h1 : cget s.ucount uid = 0 ∧ uid ∉ s.active_users
  · rw [if_pos h1]
    exact ⟨rfl, rfl, rfl, rfl, rfl, rfl, rfl, rfl, fun _ => rfl⟩
  · rw [if_neg h1, hnone]
    by_cases h2 : cget s.ucount uid = 0
    · rw [if_pos h2]
      refine ⟨rfl, rfl, rfl, rfl, rfl, rfl, rfl, rfl, fun hni => ?_⟩
      exact absurd ⟨h2, hni⟩ h1
    · rw [if_neg h2]
      exact ⟨rfl, rfl, rfl, rfl, rfl, rfl, rfl, rfl, fun _ => rfl⟩

/-- Witness for the amended C9: user 5 in the stale-active state. -/
theorem c9_cancel_nothing_witness :
    (cancel_command_handler 10 5 c9state).2.2 = .nothingToCancel ∧
    (cancel_command_handler 10 5 c9state).1.ucount = c9state.ucount ∧
    (cancel_command_handler 10 5 c9state).1.ccount = c9state.ccount ∧
    (cancel_command_handler 10 5 c9state).1.video_info = c9state.video_info ∧
    (cancel_command_handler 10 5 c9state).1.user_videos = c9state.user_videos ∧
    (cancel_command_handler 10 5 c9state).1.uqueue = c9state.uqueue ∧
    (cancel_command_handler 10 5 c9state).1.cqueue = c9state.cqueue ∧
    (cancel_command_handler 10 5 c9state).1.sched_map = c9state.sched_map ∧
    ((5 : Int) ∉ c9state.active_users → (cancel_command_handler 10 5 c9state).1 = c9state) :=
  c9_cancel_nothing_no_side_effects 10 5 c9state (by decide)

end VideoResBot

namespace VideoResBot

/-! ### Path lemmas for the user submission handler -/

theorem capn_state_user_proj (u : Int) (s : S) :
    (capn_state u false s).video_info = s.video_info ∧
    (capn_state u false s).user_videos = s.user_videos ∧
    (capn_state u false s).uqueue = s.uqueue ∧
    (capn_state u false s).cqueue = s.cqueue ∧
    (capn_state u false s).sched_map = s.sched_map ∧
    (capn_state u false s).nextId = s.nextId ∧
    (capn_state u false s).now = s.now ∧
    (capn_state u false s).ucount = decrement_active_videos s.ucount u ∧
    (capn_state u false s).ccount = s.ccount := by
  unfold capn_state remove_user_from_active_if_no_videos
  rw [if_neg Bool.false_ne_true]
  split_ifs <;> exact ⟨rfl, rfl, rfl, rfl, rfl, rfl, rfl, rfl, rfl⟩

/-- When the owner is at or over their concurrency limit, the submission is
queued: the message is appended to the owner's queue, the reported position
is the queue length after the append, and registry and ledger are
untouched. -/
theorem pvh_queued_spec (fuel : Nat) (m : UMsg) (s : S)
    (hb : m.isBanned = false) (hch : m.hasChannel = true)
    (hlim : cget s.ucount m.fromUser ≥
      (if m.isPremium then MAX_CONCURRENT_VIDEOS_PREMIUM
       else MAX_CONCURRENT_VIDEOS_REGULAR)) :
    (process_video_handler (fuel + 1) m s).2.2 =
      .queued ((qget s.uqueue m.fromUser).length + 1) ∧
    (process_video_handler (fuel + 1) m s).1.uqueue =
      add_to_queue s.uqueue m.fromUser m ∧
    (process_video_handler (fuel + 1) m s).1.video_info = s.video_info ∧
    (process_video_handler (fuel + 1) m s).1.user_videos = s.user_videos ∧
    (process_video_handler (fuel + 1) m s).1.ucount = s.ucount := by
  show (pvh_core _ m s).2.2 = _ ∧ (pvh_core _ m s).1.uqueue = _ ∧
    (pvh_core _ m s).1.video_info = _ ∧ (pvh_core _ m s).1.user_videos = _ ∧
    (pvh_core _ m s).1.ucount = _
  unfold pvh_core pvh_admission
  rw [if_neg (by simp [hb]), if_neg (by simp [hch])]
  by_cases hst : m.fromUser ∈ s.active_users ∧ userHasActiveEntry s m.fromUser = false
  · rw [if_pos hst]
    rw [if_pos hlim]
    refine ⟨?_, rfl, rfl, rfl, rfl⟩
    dsimp only
    rw [qget_add_self]
    simp
  · rw [if_neg hst]
    rw [if_pos hlim]
    refine ⟨?_, rfl, rfl, rfl, rfl⟩
    dsimp only
    rw [qget_add_self]
    simp

end VideoResBot

namespace VideoResBot

/-- When the owner is under their limit but the registry has reached
`MAX_QUEUED_VIDEOS`, the forwarded submission is rejected with the
system-busy notice and the ledger increment is rolled back (queue-drain
finds nothing for an owner with an empty queue). -/
theorem pvh_busy_spec (fuel : Nat) (m : UMsg) (s : S)
    (hb : m.isBanned = false) (hch : m.hasChannel = true)
    (hunder : cget s.ucount m.fromUser <
      (if m.isPremium then MAX_CONCURRENT_VIDEOS_PREMIUM
       else MAX_CONCURRENT_VIDEOS_REGULAR))
    (hfw : m.forwardOk = true) (hin : m.instant = false)
    (hcap : s.video_info.length ≥ MAX_QUEUED_VIDEOS)
    (hq : qget s.uqueue m.fromUser = []) :
    (process_video_handler (fuel + 1) m s).2.2 = .rejectedBusy ∧
    (process_video_handler (fuel + 1) m s).1.video_info = s.video_info ∧
    (process_video_handler (fuel + 1) m s).1.user_videos = s.user_videos ∧
    (∀ o, cget (process_video_handler (fuel + 1) m s).1.ucount o = cget s.ucount o) ∧
    (process_video_handler (fuel + 1) m s).1.uqueue = s.uqueue := by
  show (pvh_core _ m s).2.2 = _ ∧ (pvh_core _ m s).1.video_info = _ ∧
    (pvh_core _ m s).1.user_videos = _ ∧
    (∀ o, cget (pvh_core _ m s).1.ucount o = cget s.ucount o) ∧
    (pvh_core _ m s).1.uqueue = _
  unfold pvh_core pvh_admission
  rw [if_neg (by simp [hb]), if_neg (by simp [hch])]
  by_cases hst : m.fromUser ∈ s.active_users ∧ userHasActiveEntry s m.fromUser = false
  · rw [if_pos hst]
    rw [if_neg (by omega :
      ¬ cget s.ucount m.fromUser ≥
        (if m.isPremium then MAX_CONCURRENT_VIDEOS_PREMIUM
         else MAX_CONCURRENT_VIDEOS_REGULAR))]
    rw [if_neg (by simp [hfw]), if_neg (by simp [hin]), if_pos hcap]
    dsimp only
    rw [drain_empty fuel m.fromUser]
    · obtain ⟨hvi, huv, huq, -, -, -, -, huc, -⟩ := capn_state_user_proj m.fromUser
        { s with active_users := sadd (sdel s.active_users m.fromUser) m.fromUser
                 ucount := increment_active_videos s.ucount m.fromUser
                 nextId := s.nextId + 1 }
      refine ⟨rfl, hvi, huv, ?_, huq⟩
      intro o
      rw [huc]
      exact cget_dec_inc s.ucount m.fromUser o
    · obtain ⟨-, -, huq, -⟩ := capn_state_user_proj m.fromUser
        { s with active_users := sadd (sdel s.active_users m.fromUser) m.fromUser
                 ucount := increment_active_videos s.ucount m.fromUser
                 nextId := s.nextId + 1 }
      rw [huq]
      exact hq
  · rw [if_neg hst]
    rw [if_neg (by omega :
      ¬ cget s.ucount m.fromUser ≥
        (if m.isPremium then MAX_CONCURRENT_VIDEOS_PREMIUM
         else MAX_CONCURRENT_VIDEOS_REGULAR))]
    rw [if_neg (by simp [hfw]), if_neg (by simp [hin]), if_pos hcap]
    dsimp only
    rw [drain_empty fuel m.fromUser]
    · obtain ⟨hvi, huv, huq, -, -, -, -, huc, -⟩ := capn_state_user_proj m.fromUser
        { s with active_users := sadd s.active_users m.fromUser
                 ucount := increment_active_videos s.ucount m.fromUser
                 nextId := s.nextId + 1 }
      refine ⟨rfl, hvi, huv, ?_, huq⟩
      intro o
      rw [huc]
      exact cget_dec_inc s.ucount m.fromUser o
    · obtain ⟨-, -, huq, -⟩ := capn_state_user_proj m.fromUser
        { s with active_users := sadd s.active_users m.fromUser
                 ucount := increment_active_videos s.ucount m.fromUser
                 nextId := s.nextId + 1 }
      rw [huq]
      exact hq

end VideoResBot

namespace VideoResBot

/-- Relocation (forward to the transfer channel) failure on the user path:
the submission is rejected, the ledger increment is rolled back, and the
job is never tracked. -/
theorem pvh_forward_fail_spec (fuel : Nat) (m : UMsg) (s : S)
    (hb : m.isBanned = false) (hch : m.hasChannel = true)
    (hunder : cget s.ucount m.fromUser <
      (if m.isPremium then MAX_CONCURRENT_VIDEOS_PREMIUM
       else MAX_CONCURRENT_VIDEOS_REGULAR))
    (hfw : m.forwardOk = false)
    (hq : qget s.uqueue m.fromUser = []) :
    (process_video_handler (fuel + 1) m s).2.2 = .rejectedForwardFailed ∧
    (process_video_handler (fuel + 1) m s).1.video_info = s.video_info ∧
    (process_video_handler (fuel + 1) m s).1.user_videos = s.user_videos ∧
    (∀ o, cget (process_video_handler (fuel + 1) m s).1.ucount o = cget s.ucount o) ∧
    (process_video_handler (fuel + 1) m s).1.uqueue = s.uqueue := by
  show (pvh_core _ m s).2.2 = _ ∧ (pvh_core _ m s).1.video_info = _ ∧
    (pvh_core _ m s).1.user_videos = _ ∧
    (∀ o, cget (pvh_core _ m s).1.ucount o = cget s.ucount o) ∧
    (pvh_core _ m s).1.uqueue = _
  unfold pvh_core pvh_admission
  rw [if_neg (by simp [hb]), if_neg (by simp [hch])]
  by_cases hst : m.fromUser ∈ s.active_users ∧ userHasActiveEntry s m.fromUser = false
  · rw [if_pos hst]
    rw [if_neg (by omega :
      ¬ cget s.ucount m.fromUser ≥
        (if m.isPremium then MAX_CONCURRENT_VIDEOS_PREMIUM
         else MAX_CONCURRENT_VIDEOS_REGULAR))]
    rw [if_pos (by simp [hfw] : (!m.forwardOk) = true)]
    dsimp only
    rw [drain_empty fuel m.fromUser]
    · obtain ⟨hvi, huv, huq, -, -, -, -, huc, -⟩ := capn_state_user_proj m.fromUser
        { s with active_users := sadd (sdel s.active_users m.fromUser) m.fromUser
                 ucount := increment_active_videos s.ucount m.fromUser }
      refine ⟨rfl, hvi, huv, ?_, huq⟩
      intro o
      rw [huc]
      exact cget_dec_inc s.ucount m.fromUser o
    · obtain ⟨-, -, huq, -⟩ := capn_state_user_proj m.fromUser
        { s with active_users := sadd (sdel s.active_users m.fromUser) m.fromUser
                 ucount := increment_active_videos s.ucount m.fromUser }
      rw [huq]
      exact hq
  · rw [if_neg hst]
    rw [if_neg (by omega :
      ¬ cget s.ucount m.fromUser ≥
        (if m.isPremium then MAX_CONCURRENT_VIDEOS_PREMIUM
         else MAX_CONCURRENT_VIDEOS_REGULAR))]
    rw [if_pos (by simp [hfw] : (!m.forwardOk) = true)]
    dsimp only
    rw [drain_empty fuel m.fromUser]
    · obtain ⟨hvi, huv, huq, -, -, -, -, huc, -⟩ := capn_state_user_proj m.fromUser
        { s with active_users := sadd s.active_users m.fromUser
                 ucount := increment_active_videos s.ucount m.fromUser }
      refine ⟨rfl, hvi, huv, ?_, huq⟩
      intro o
      rw [huc]
      exact cget_dec_inc s.ucount m.fromUser o
    · obtain ⟨-, -, huq, -⟩ := capn_state_user_proj m.fromUser
        { s with active_users := sadd s.active_users m.fromUser
                 ucount := increment_active_videos s.ucount m.fromUser }
      rw [huq]
      exact hq

/-- Scheduling (parking) failure on the user path after a successful
forward: rejected, ledger rolled back, job never tracked. -/
theorem pvh_sched_fail_spec (fuel : Nat) (m : UMsg) (s : S)
    (hb : m.isBanned = false) (hch : m.hasChannel = true)
    (hunder : cget s.ucount m.fromUser <
      (if m.isPremium then MAX_CONCURRENT_VIDEOS_PREMIUM
       else MAX_CONCURRENT_VIDEOS_REGULAR))
    (hfw : m.forwardOk = true) (hin : m.instant = false)
    (hcap : ¬ s.video_info.length ≥ MAX_QUEUED_VIDEOS)
    (hsz : m.sizeOk = true) (hfm : m.formatOk = true) (hsc : m.schedOk = false)
    (hq : qget s.uqueue m.fromUser = []) :
    (process_video_handler (fuel + 1) m s).2.2 = .rejectedScheduleFailed ∧
    (process_video_handler (fuel + 1) m s).1.video_info = s.video_info ∧
    (process_video_handler (fuel + 1) m s).1.user_videos = s.user_videos ∧
    (∀ o, cget (process_video_handler (fuel + 1) m s).1.ucount o = cget s.ucount o) ∧
    (process_video_handler (fuel + 1) m s).1.uqueue = s.uqueue := by
  show (pvh_core _ m s).2.2 = _ ∧ (pvh_core _ m s).1.video_info = _ ∧
    (pvh_core _ m s).1.user_videos = _ ∧
    (∀ o, cget (pvh_core _ m s).1.ucount o = cget s.ucount o) ∧
    (pvh_core _ m s).1.uqueue = _
  unfold pvh_core pvh_admission
  rw [if_neg (by simp [hb]), if_neg (by simp [hch])]
  by_cases hst : m.fromUser ∈ s.active_users ∧ userHasActiveEntry s m.fromUser = false
  · rw [if_pos hst]
    rw [if_neg (by omega :
      ¬ cget s.ucount m.fromUser ≥
        (if m.isPremium then MAX_CONCURRENT_VIDEOS_PREMIUM
         else MAX_CONCURRENT_VIDEOS_REGULAR))]
    rw [if_neg (by simp [hfw]), if_neg (by simp [hin]), if_neg hcap,
        if_neg (by simp [hsz]), if_neg (by simp [hfm]),
        if_pos (by simp [hsc] : (!m.schedOk) = true)]
    dsimp only
    rw [drain_empty fuel m.fromUser]
    · obtain ⟨hvi, huv, huq, -, -, -, -, huc, -⟩ := capn_state_user_proj m.fromUser
        { s with active_users := sadd (sdel s.active_users m.fromUser) m.fromUser
                 ucount := increment_active_videos s.ucount m.fromUser
                 nextId := s.nextId + 1 }
      refine ⟨rfl, hvi, huv, ?_, huq⟩
      intro o
      rw [huc]
      exact cget_dec_inc s.ucount m.fromUser o
    · obtain ⟨-, -, huq, -⟩ := capn_state_user_proj m.fromUser
        { s with active_users := sadd (sdel s.active_users m.fromUser) m.fromUser
                 ucount := increment_active_videos s.ucount m.fromUser
                 nextId := s.nextId + 1 }
      rw [huq]
      exact hq
  · rw [if_neg hst]
    rw [if_neg (by omega :
      ¬ cget s.ucount m.fromUser ≥
        (if m.isPremium then MAX_CONCURRENT_VIDEOS_PREMIUM
         else MAX_CONCURRENT_VIDEOS_REGULAR))]
    rw [if_neg (by simp [hfw]), if_neg (by simp [hin]), if_neg hcap,
        if_neg (by simp [hsz]), if_neg (by simp [hfm]),
        if_pos (by simp [hsc] : (!m.schedOk) = true)]
    dsimp only
    rw [drain_empty fuel m.fromUser]
    · obtain ⟨hvi, huv, huq, -, -, -, -, huc, -⟩ := capn_state_user_proj m.fromUser
        { s with active_users := sadd s.active_users m.fromUser
                 ucount := increment_active_videos s.ucount m.fromUser
                 nextId := s.nextId + 1 }
      refine ⟨rfl, hvi, huv, ?_, huq⟩
      intro o
      rw [huc]
      exact cget_dec_inc s.ucount m.fromUser o
    · obtain ⟨-, -, huq, -⟩ := capn_state_user_proj m.fromUser
        { s with active_users := sadd s.active_users m.fromUser
                 ucount := increment_active_videos s.ucount m.fromUser
                 nextId := s.nextId + 1 }
      rw [huq]
      exact hq

/-- Instantly-processed user path: the results are delivered at once, the
slot is released, and the job is never entered into the registry. -/
theorem pvh_instant_spec (fuel : Nat) (m : UMsg) (s : S)
    (hb : m.isBanned = false) (hch : m.hasChannel = true)
    (hunder : cget s.ucount m.fromUser <
      (if m.isPremium then MAX_CONCURRENT_VIDEOS_PREMIUM
       else MAX_CONCURRENT_VIDEOS_REGULAR))
    (hfw : m.forwardOk = true) (hin : m.instant = true)
    (hq : qget s.uqueue m.fromUser = []) :
    (process_video_handler (fuel + 1) m s).2.2 = .instantDone s.nextId ∧
    (process_video_handler (fuel + 1) m s).1.video_info = s.video_info ∧
    (process_video_handler (fuel + 1) m s).1.user_videos = s.user_videos ∧
    (∀ o, cget (process_video_handler (fuel + 1) m s).1.ucount o = cget s.ucount o) ∧
    Effect.deliverOriginal m.fromUser s.nextId ∈ (process_video_handler (fuel + 1) m s).2.1 ∧
    Effect.deliverAlternatives m.fromUser s.nextId ∈ (process_video_handler (fuel + 1) m s).2.1 := by
  show (pvh_core _ m s).2.2 = _ ∧ (pvh_core _ m s).1.video_info = _ ∧
    (pvh_core _ m s).1.user_videos = _ ∧
    (∀ o, cget (pvh_core _ m s).1.ucount o = cget s.ucount o) ∧
    _ ∈ (pvh_core _ m s).2.1 ∧ _ ∈ (pvh_core _ m s).2.1
  unfold pvh_core pvh_admission
  rw [if_neg (by simp [hb]), if_neg (by simp [hch])]
  by_cases hst : m.fromUser ∈ s.active_users ∧ userHasActiveEntry s m.fromUser = false
  · rw [if_pos hst]
    rw [if_neg (by omega :
      ¬ cget s.ucount m.fromUser ≥
        (if m.isPremium then MAX_CONCURRENT_VIDEOS_PREMIUM
         else MAX_CONCURRENT_VIDEOS_REGULAR))]
    rw [if_neg (by simp [hfw]), if_pos hin]
    dsimp only
    rw [drain_empty fuel m.fromUser]
    · obtain ⟨hvi, huv, huq, -, -, -, -, huc, -⟩ := capn_state_user_proj m.fromUser
        { s with active_users := sadd (sdel s.active_users m.fromUser) m.fromUser
                 ucount := increment_active_videos s.ucount m.fromUser
                 nextId := s.nextId + 1 }
      refine ⟨rfl, hvi, huv, ?_, by simp, by simp⟩
      intro o
      rw [huc]
      exact cget_dec_inc s.ucount m.fromUser o
    · obtain ⟨-, -, huq, -⟩ := capn_state_user_proj m.fromUser
        { s with active_users := sadd (sdel s.active_users m.fromUser) m.fromUser
                 ucount := increment_active_videos s.ucount m.fromUser
                 nextId := s.nextId + 1 }
      rw [huq]
      exact hq
  · rw [if_neg hst]
    rw [if_neg (by omega :
      ¬ cget s.ucount m.fromUser ≥
        (if m.isPremium then MAX_CONCURRENT_VIDEOS_PREMIUM
         else MAX_CONCURRENT_VIDEOS_REGULAR))]
    rw [if_neg (by simp [hfw]), if_pos hin]
    dsimp only
    rw [drain_empty fuel m.fromUser]
    · obtain ⟨hvi, huv, huq, -, -, -, -, huc, -⟩ := capn_state_user_proj m.fromUser
        { s with active_users := sadd s.active_users m.fromUser
                 ucount := increment_active_videos s.ucount m.fromUser
                 nextId := s.nextId + 1 }
      refine ⟨rfl, hvi, huv, ?_, by simp, by simp⟩
      intro o
      rw [huc]
      exact cget_dec_inc s.ucount m.fromUser o
    · obtain ⟨-, -, huq, -⟩ := capn_state_user_proj m.fromUser
        { s with active_users := sadd s.active_users m.fromUser
                 ucount := increment_active_videos s.ucount m.fromUser
                 nextId := s.nextId + 1 }
      rw [huq]
      exact hq

/-- Channel relocation failure: the counter is rolled back in place and
nothing is tracked. -/
theorem pcv_forward_fail_spec (m : CMsg) (s : S)
    (hA : m.hasAlternatives = false) (hsz : m.sizeOk = true) (hfm : m.formatOk = true)
    (hlim : cget s.ccount m.chatId < MAX_CONCURRENT_VIDEOS_CHANNEL)
    (hfw : m.forwardOk = false) :
    process_channel_video m s =
      ({ s with ccount :=
          decrement_active_videos (increment_active_videos s.ccount m.chatId) m.chatId },
       [], .rejectedForwardFailed) := by
  unfold process_channel_video
  rw [if_neg (by simp [hA]), if_neg (by simp [hsz]), if_neg (by simp [hfm]),
      if_neg (by omega : ¬ cget s.ccount m.chatId ≥ MAX_CONCURRENT_VIDEOS_CHANNEL),
      if_pos (by simp [hfw] : (!m.forwardOk) = true)]

/-- Channel scheduling failure after a successful forward: the counter is
rolled back and nothing is tracked. -/
theorem pcv_sched_fail_spec (m : CMsg) (s : S)
    (hA : m.hasAlternatives = false) (hsz : m.sizeOk = true) (hfm : m.formatOk = true)
    (hlim : cget s.ccount m.chatId < MAX_CONCURRENT_VIDEOS_CHANNEL)
    (hfw : m.forwardOk = true) (hsc : m.schedOk = false) :
    process_channel_video m s =
      ({ s with
          ccount :=
            decrement_active_videos (increment_active_videos s.ccount m.chatId) m.chatId
          nextId := s.nextId + 1 },
       [], .rejectedScheduleFailed) := by
  unfold process_channel_video
  rw [if_neg (by simp [hA]), if_neg (by simp [hsz]), if_neg (by simp [hfm]),
      if_neg (by omega : ¬ cget s.ccount m.chatId ≥ MAX_CONCURRENT_VIDEOS_CHANNEL),
      if_neg (by simp [hfw]),
      if_pos (by simp [hsc] : (!m.schedOk) = true)]

/-- Channel submission with the registry at the cap: silently dropped
before any per-channel check. -/
theorem cvh_cap_spec (m : CMsg) (s : S)
    (hact : m.chanActive = true) (hcap : s.video_info.length ≥ MAX_QUEUED_VIDEOS) :
    channel_video_handler m s = (s, [], .rejectedBusy) := by
  unfold channel_video_handler
  rw [if_neg (by simp [hact]), if_pos hcap]

end VideoResBot

namespace VideoResBot

/-! ### Claim C4 -/

/-- C4 counterexample: with the registry at the configured cap
(`MAX_QUEUED_VIDEOS` in-flight jobs — `QUEUE_SIZE_LIMIT` is never
consulted), a further submission by user 5, who is at their (regular)
concurrency limit, is Queued at position 1, not Rejected: the per-owner
admission rule runs before the cap check in the user path. -/
theorem c4_at_cap_still_queued :
    c4state.video_info.length ≥ MAX_QUEUED_VIDEOS ∧
    cget c4state.ucount 5 ≥ MAX_CONCURRENT_VIDEOS_REGULAR ∧
    c4msg.isPremium = false ∧
    (process_video_handler 10 c4msg c4state).2.2 = .queued 1 := by decide

/-- C4 amended: the global cap compares the number of in-flight registry
entries (`len(State.video_info)`) with `MAX_QUEUED_VIDEOS`; pending queue
entries are not counted.  In the user path the cap is applied only after
the per-owner concurrency rule: at the cap an owner at their limit is
still Queued, while an under-limit owner's video is forwarded and then
rejected with the system-busy notice, rolling the ledger back.  In the
channel path the cap is checked first and the video is silently dropped. -/
theorem c4_cap_behaviour (fuel : Nat) (mq m : UMsg) (cm : CMsg) (s : S)
    (hcap : s.video_info.length ≥ MAX_QUEUED_VIDEOS)
    (hqb : mq.isBanned = false) (hqch : mq.hasChannel = true)
    (hqlim : cget s.ucount mq.fromUser ≥
      (if mq.isPremium then MAX_CONCURRENT_VIDEOS_PREMIUM
       else MAX_CONCURRENT_VIDEOS_REGULAR))
    (hb : m.isBanned = false) (hch : m.hasChannel = true)
    (hunder : cget s.ucount m.fromUser <
      (if m.isPremium then MAX_CONCURRENT_VIDEOS_PREMIUM
       else MAX_CONCURRENT_VIDEOS_REGULAR))
    (hfw : m.forwardOk = true) (hin : m.instant = false)
    (hq : qget s.uqueue m.fromUser = [])
    (hact : cm.chanActive = true) :
    (process_video_handler (fuel + 1) mq s).2.2 =
      .queued ((qget s.uqueue mq.fromUser).length + 1) ∧
    ((process_video_handler (fuel + 1) m s).2.2 = .rejectedBusy ∧
     (process_video_handler (fuel + 1) m s).1.video_info = s.video_info ∧
     (∀ o, cget (process_video_handler (fuel + 1) m s).1.ucount o = cget s.ucount o)) ∧
    channel_video_handler cm s = (s, [], .rejectedBusy) := by
  obtain ⟨hq1, -, -, -, -⟩ := pvh_queued_spec fuel mq s hqb hqch hqlim
  obtain ⟨hb1, hb2, -, hb4, -⟩ := pvh_busy_spec fuel m s hb hch hunder hfw hin hcap hq
  exact ⟨hq1, ⟨hb1, hb2, hb4⟩, cvh_cap_spec cm s hact hcap⟩

def c4msgUnder : UMsg := ⟨6, false, true, false, 1, 1, true, false, true, true, true⟩

def c4cmsg : CMsg := ⟨-200, 7, true, false, true, true, true, true, 1, 1⟩

/-- Witness for the amended C4 at the concrete at-cap state. -/
theorem c4_cap_behaviour_witness :
    (process_video_handler 10 c4msg c4state).2.2 =
      .queued ((qget c4state.uqueue c4msg.fromUser).length + 1) ∧
    ((process_video_handler 10 c4msgUnder c4state).2.2 = .rejectedBusy ∧
     (process_video_handler 10 c4msgUnder c4state).1.video_info = c4state.video_info ∧
     (∀ o, cget (process_video_handler 10 c4msgUnder c4state).1.ucount o =
        cget c4state.ucount o)) ∧
    channel_video_handler c4cmsg c4state = (c4state, [], .rejectedBusy) :=
  c4_cap_behaviour 9 c4msg c4msgUnder c4cmsg c4state (by decide) (by decide) (by decide)
    (by decide) (by decide) (by decide) (by decide) (by decide) (by decide) (by decide)
    (by decide)

/-! ### Claim C5 -/

/-- C5: a regular user (concurrency limit `MAX_CONCURRENT_VIDEOS_REGULAR = 1`)
submits two videos: the first is Accepted (tracked as transfer id 1), the
second is Queued at position 1.  Cancelling the first causes the second to
be admitted automatically by the queue-drain scheduled from cleanup — with
no further submit call, the registry then holds the second video (the
freshly forwarded transfer id 3, owned by user 5), the ledger is back to
one slot used, and the queue is empty. -/
theorem c5_two_submissions_cancel_autopromotes :
    MAX_CONCURRENT_VIDEOS_REGULAR = 1 ∧
    (process_video_handler 10 c1msg initState).2.2 = .accepted 1 ∧
    (process_video_handler 10 c1msg c1state).2.2 = .queued 1 ∧
    (cancel_command_handler 10 5 (process_video_handler 10 c1msg c1state).1).2.2 =
      .cancelled 1 ∧
    amem (cancel_command_handler 10 5
      (process_video_handler 10 c1msg c1state).1).1.video_info 1 = false ∧
    aget? (cancel_command_handler 10 5
      (process_video_handler 10 c1msg c1state).1).1.user_videos 3 = some (.user 5) ∧
    amem (cancel_command_handler 10 5
      (process_video_handler 10 c1msg c1state).1).1.video_info 3 = true ∧
    cget (cancel_command_handler 10 5
      (process_video_handler 10 c1msg c1state).1).1.ucount 5 = 1 ∧
    qget (cancel_command_handler 10 5
      (process_video_handler 10 c1msg c1state).1).1.uqueue 5 = [] := by decide

/-! ### Claim C7 -/

/-- C7: during submit of an under-limit owner the ledger is incremented
before relocation/parking; when relocation (forward) or parking
(scheduling) fails, the increment is rolled back — every owner's count is
back at its pre-submit value — and the submission is rejected without ever
being tracked in the registry.  All four failure paths are covered: user
forward failure, user scheduling failure, channel forward failure, channel
scheduling failure. -/
theorem c7_failure_rolls_back_increment (fuel : Nat) (mf ms : UMsg) (cf cs : CMsg)
    (s : S)
    (hfb : mf.isBanned = false) (hfch : mf.hasChannel = true)
    (hfunder : cget s.ucount mf.fromUser <
      (if mf.isPremium then MAX_CONCURRENT_VIDEOS_PREMIUM
       else MAX_CONCURRENT_VIDEOS_REGULAR))
    (hffw : mf.forwardOk = false) (hfq : qget s.uqueue mf.fromUser = [])
    (hsb : ms.isBanned = false) (hsch : ms.hasChannel = true)
    (hsunder : cget s.ucount ms.fromUser <
      (if ms.isPremium then MAX_CONCURRENT_VIDEOS_PREMIUM
       else MAX_CONCURRENT_VIDEOS_REGULAR))
    (hsfw : ms.forwardOk = true) (hsin : ms.instant = false)
    (hscap : ¬ s.video_info.length ≥ MAX_QUEUED_VIDEOS)
    (hssz : ms.sizeOk = true) (hsfm : ms.formatOk = true) (hssc : ms.schedOk = false)
    (hsq : qget s.uqueue ms.fromUser = [])
    (hcfA : cf.hasAlternatives = false) (hcfsz : cf.sizeOk = true)
    (hcffm : cf.formatOk = true)
    (hcflim : cget s.ccount cf.chatId < MAX_CONCURRENT_VIDEOS_CHANNEL)
    (hcffw : cf.forwardOk = false)
    (hcsA : cs.hasAlternatives = false) (hcssz : cs.sizeOk = true)
    (hcsfm : cs.formatOk = true)
    (hcslim : cget s.ccount cs.chatId < MAX_CONCURRENT_VIDEOS_CHANNEL)
    (hcsfw : cs.forwardOk = true) (hcssc : cs.schedOk = false) :
    ((process_video_handler (fuel + 1) mf s).2.2 = .rejectedForwardFailed ∧
     (process_video_handler (fuel + 1) mf s).1.video_info = s.video_info ∧
     (∀ o, cget (process_video_handler (fuel + 1) mf s).1.ucount o = cget s.ucount o)) ∧
    ((process_video_handler (fuel + 1) ms s).2.2 = .rejectedScheduleFailed ∧
     (process_video_handler (fuel + 1) ms s).1.video_info = s.video_info ∧
     (∀ o, cget (process_video_handler (fuel + 1) ms s).1.ucount o = cget s.ucount o)) ∧
    ((process_channel_video cf s).2.2 = .rejectedForwardFailed ∧
     (process_channel_video cf s).1.video_info = s.video_info ∧
     (∀ o, cget (process_channel_video cf s).1.ccount o = cget s.ccount o)) ∧
    ((process_channel_video cs s).2.2 = .rejectedScheduleFailed ∧
     (process_channel_video cs s).1.video_info = s.video_info ∧
     (∀ o, cget (process_channel_video cs s).1.ccount o = cget s.ccount o)) := by
  obtain ⟨hf1, hf2, -, hf4, -⟩ := pvh_forward_fail_spec fuel mf s hfb hfch hfunder hffw hfq
  obtain ⟨hs1, hs2, -, hs4, -⟩ := pvh_sched_fail_spec fuel ms s hsb hsch hsunder hsfw
    hsin hscap hssz hsfm hssc hsq
  refine ⟨⟨hf1, hf2, hf4⟩, ⟨hs1, hs2, hs4⟩, ?_, ?_⟩
  · rw [pcv_forward_fail_spec cf s hcfA hcfsz hcffm hcflim hcffw]
    exact ⟨rfl, rfl, fun o => cget_dec_inc s.ccount cf.chatId o⟩
  · rw [pcv_sched_fail_spec cs s hcsA hcssz hcsfm hcslim hcsfw hcssc]
    exact ⟨rfl, rfl, fun o => cget_dec_inc s.ccount cs.chatId o⟩

def c7msgF : UMsg := ⟨6, false, true, false, 1, 1, false, false, true, true, true⟩

def c7msgS : UMsg := ⟨6, false, true, false, 1, 1, true, false, true, true, false⟩

def c7cmsgF : CMsg := ⟨-200, 7, true, false, true, true, false, true, 1, 1⟩

def c7cmsgS : CMsg := ⟨-200, 7, true, false, true, true, true, false, 1, 1⟩

/-- Witness for C7 at the empty initial state. -/
theorem c7_failure_rolls_back_witness :
    ((process_video_handler 10 c7msgF initState).2.2 = .rejectedForwardFailed ∧
     (process_video_handler 10 c7msgF initState).1.video_info = initState.video_info ∧
     (∀ o, cget (process_video_handler 10 c7msgF initState).1.ucount o =
        cget initState.ucount o)) ∧
    ((process_video_handler 10 c7msgS initState).2.2 = .rejectedScheduleFailed ∧
     (process_video_handler 10 c7msgS initState).1.video_info = initState.video_info ∧
     (∀ o, cget (process_video_handler 10 c7msgS initState).1.ucount o =
        cget initState.ucount o)) ∧
    ((process_channel_video c7cmsgF initState).2.2 = .rejectedForwardFailed ∧
     (process_channel_video c7cmsgF initState).1.video_info = initState.video_info ∧
     (∀ o, cget (process_channel_video c7cmsgF initState).1.ccount o =
        cget initState.ccount o)) ∧
    ((process_channel_video c7cmsgS initState).2.2 = .rejectedScheduleFailed ∧
     (process_channel_video c7cmsgS initState).1.video_info = initState.video_info ∧
     (∀ o, cget (process_channel_video c7cmsgS initState).1.ccount o =
        cget initState.ccount o)) :=
  c7_failure_rolls_back_increment 9 c7msgF c7msgS c7cmsgF c7cmsgS initState
    (by decide) (by decide) (by decide) (by decide) (by decide)
    (by decide) (by decide) (by decide) (by decide) (by decide) (by decide)
    (by decide) (by decide) (by decide) (by decide)
    (by decide) (by decide) (by decide) (by decide) (by decide)
    (by decide) (by decide) (by decide) (by decide) (by decide) (by decide)

/-! ### Claim C10 -/

/-- C10: a user submission whose forwarded copy already carries derived
variants (instantly processed) is delivered immediately — the original and
the alternative qualities are sent to the user — and the concurrency slot
is released (every owner's counter returns to its pre-submit value, the
owner's queue being empty), while the job is never entered into the Job
Registry: `video_info` and `user_videos` are unchanged, so the poller
never sees it. -/
theorem c10_instant_never_tracked (fuel : Nat) (m : UMsg) (s : S)
    (hb : m.isBanned = false) (hch : m.hasChannel = true)
    (hunder : cget s.ucount m.fromUser <
      (if m.isPremium then MAX_CONCURRENT_VIDEOS_PREMIUM
       else MAX_CONCURRENT_VIDEOS_REGULAR))
    (hfw : m.forwardOk = true) (hin : m.instant = true)
    (hq : qget s.uqueue m.fromUser = []) :
    (process_video_handler (fuel + 1) m s).2.2 = .instantDone s.nextId ∧
    (process_video_handler (fuel + 1) m s).1.video_info = s.video_info ∧
    (process_video_handler (fuel + 1) m s).1.user_videos = s.user_videos ∧
    (∀ o, cget (process_video_handler (fuel + 1) m s).1.ucount o = cget s.ucount o) ∧
    Effect.deliverOriginal m.fromUser s.nextId ∈
      (process_video_handler (fuel + 1) m s).2.1 ∧
    Effect.deliverAlternatives m.fromUser s.nextId ∈
      (process_video_handler (fuel + 1) m s).2.1 :=
  pvh_instant_spec fuel m s hb hch hunder hfw hin hq

def c10msg : UMsg := ⟨5, false, true, false, 100, 60, true, true, true, true, true⟩

/-- Witness for C10 at the empty initial state. -/
theorem c10_instant_never_tracked_witness :
    (process_video_handler 10 c10msg initState).2.2 = .instantDone initState.nextId ∧
    (process_video_handler 10 c10msg initState).1.video_info = initState.video_info ∧
    (process_video_handler 10 c10msg initState).1.user_videos = initState.user_videos ∧
    (∀ o, cget (process_video_handler 10 c10msg initState).1.ucount o =
      cget initState.ucount o) ∧
    Effect.deliverOriginal c10msg.fromUser initState.nextId ∈
      (process_video_handler 10 c10msg initState).2.1 ∧
    Effect.deliverAlternatives c10msg.fromUser initState.nextId ∈
      (process_video_handler 10 c10msg initState).2.1 :=
  c10_instant_never_tracked 9 c10msg initState (by decide) (by decide) (by decide)
    (by decide) (by decide) (by decide)

end VideoResBot
